import Mathlib

/-!
# Verification of the IoT-protocol TypeScript engine

Shallow embedding of `src/iot_protocol.ts` (the `IoTProtocol` class with the
ALIVE and BUFFER_SIZE sub-protocols): the pure encode path of `send`, the
writer loop `writeBodyPart`, and the inbound parser/state machine `onData`
together with the `data`-event handler installed by `readClient`.

Buffers are `List Nat` (each element a byte value 0..255 as produced by
Node's `Buffer`); JavaScript numbers that can become negative are `Int`.
JavaScript quirks that the code relies on are modelled explicitly:

* `Buffer.prototype.indexOf (value, fromIndex)` returns `-1` when absent,
  so index results are `Int` (`jsIndexOf`);
* `Buffer.prototype.subarray` clamps its arguments and interprets negative
  ones as offsets from the end (`jsSub`);
* out-of-range `buffer[i]` is `undefined`; `undefined << k` coerces to `0`
  (`jsByte` reads), while `x + undefined` is `NaN` — a `NaN`-valued
  number is modelled as `none` of an `Option` (`bufferSizeOfBody`,
  `IoTClientState.bufferSize`);
* a comparison against `NaN` is `false` (`jsGtBufferCheck`,
  `jsNeedsSplit`);
* `Buffer.writeUInt8/16/32BE` throw `ERR_OUT_OF_RANGE` for values that do
  not fit, and reads past the end (`readUInt8`, `readUInt16BE`) throw —
  modelled with `Except`/`Option` and the `threw` outcome flag;
* an empty `Buffer` is truthy (so a present-but-empty `body` still sets the
  BODY flag), while the empty string is falsy (so an empty `path` does not
  set the PATH flag);
* a plain object keeps string keys in insertion order and overwrites
  duplicates in place (`jsInsert`); results about header order assume keys
  that are not canonical numeric strings (which `Object.keys` would move to
  the front), recorded as an explicit non-digit-byte hypothesis where
  header order matters.

Timers (`setTimeout` deletion of reassembly entries, keep-alive scheduling,
request/response timeouts) fire outside `onData`; the state machine here is
the sequence of `data` events, and timer (re)arming is recorded as a flag of
the per-event outcome, not as elapsed time.
-/

namespace IoTSpec

/-- `IOT_ETX`. -/
def IOT_ETX : Nat := 0x3
/-- `IOT_RS`. -/
def IOT_RS : Nat := 0x1E
/-- `IOT_MSCB_ID`. -/
def IOT_MSCB_ID : Nat := 2
/-- `IOT_MSCB_PATH`. -/
def IOT_MSCB_PATH : Nat := 1
/-- `IOT_LSCB_HEADER`. -/
def IOT_LSCB_HEADER : Nat := 2
/-- `IOT_LSCB_BODY`. -/
def IOT_LSCB_BODY : Nat := 1
/-- `IOT_PROTOCOL_DEFAULT_BUFFER_SIZE`. -/
def IOT_PROTOCOL_DEFAULT_BUFFER_SIZE : Nat := 1024

/-- `Buffer.prototype.indexOf value fromIndex` over a byte list: the index of
the first occurrence of `v` at or after `start`, or `-1` when there is none
(also when `start` is at or past the end). -/
def jsIndexOf (l : List Nat) (v : Nat) (start : Nat) : Int :=
  match (l.drop start).findIdx? (fun b => b = v) with
  | some j => (start + j : Nat)
  | none => -1

/-- Normalize a JS `subarray` index: negative counts from the end, then the
result is clamped into `[0, length]`. -/
def jsIdx (len : Nat) (i : Int) : Nat :=
  if i < 0 then ((len : Int) + i).toNat else min i.toNat len

/-- `Buffer.prototype.subarray start end` over a byte list (TypedArray
semantics: both indices normalized by `jsIdx`, empty when they cross). -/
def jsSub (l : List Nat) (s e : Int) : List Nat :=
  (l.take (jsIdx l.length e)).drop (jsIdx l.length s)

/-- `buffer.subarray start` (to the end of the buffer). -/
def jsSubFrom (l : List Nat) (s : Int) : List Nat :=
  jsSub l s (l.length : Int)

/-- `buffer[i]` as consumed by a `<<` shift or `readUInt16BE` assembly:
out-of-range access yields `undefined`, which the shift coerces to `0`. -/
def jsByte (l : List Nat) (i : Nat) : Nat := l.getD i 0

/-- Insertion into a JS object used as a map (`request.headers[k] = v`):
a duplicate key is overwritten in place, a new key is appended, so
`Object.keys` order is insertion order (for non-numeric keys). -/
def jsInsert (m : List (List Nat × List Nat)) (k v : List Nat) :
    List (List Nat × List Nat) :=
  match m with
  | [] => [(k, v)]
  | (k', v') :: rest =>
    if k' = k then (k', v) :: rest else (k', v') :: jsInsert rest k v

/-- The failure exits of `IoTProtocol.send` before anything is written:
Node range errors from `writeUInt8/16/32BE` plus the two explicit throws. -/
inductive SendErr where
  /-- `writeUInt8`/`writeUInt16BE`/`writeUInt32BE` on a body length that
  does not fit the method's length field. -/
  | bodyLenRange : SendErr
  /-- `idBuffer.writeUInt16BE` on an id above `0xFFFF`. -/
  | idRange : SendErr
  /-- `"Too many headers. Maximum Headers is 255."`. -/
  | tooManyHeaders : SendErr
  /-- `"Path and Headers too big."`. -/
  | pathHeadersTooBig : SendErr
  deriving DecidableEq, Repr

/-- The `EIoTMethod` enum. -/
inductive EIoTMethod where
  | SIGNAL | REQUEST | RESPONSE | STREAMING
  | ALIVE_REQUEST | ALIVE_RESPONSE | BUFFER_SIZE_REQUEST | BUFFER_SIZE_RESPONSE
  deriving DecidableEq, Repr

/-- The numeric value of an `EIoTMethod` member. -/
def EIoTMethod.code : EIoTMethod → Nat
  | .SIGNAL => 1
  | .REQUEST => 2
  | .RESPONSE => 3
  | .STREAMING => 4
  | .ALIVE_REQUEST => 5
  | .ALIVE_RESPONSE => 6
  | .BUFFER_SIZE_REQUEST => 7
  | .BUFFER_SIZE_RESPONSE => 8

/-- The enum member a decoded method number denotes, when it denotes one. -/
def methodOfNat : Nat → Option EIoTMethod
  | 1 => some .SIGNAL
  | 2 => some .REQUEST
  | 3 => some .RESPONSE
  | 4 => some .STREAMING
  | 5 => some .ALIVE_REQUEST
  | 6 => some .ALIVE_RESPONSE
  | 7 => some .BUFFER_SIZE_REQUEST
  | 8 => some .BUFFER_SIZE_RESPONSE
  | _ => none

/-- An outbound `IoTRequest` as `send` consumes it: optional fields are
`Option`, `headers` an insertion-ordered association list (a JS object),
`version = 0` standing for the absent/falsy version that `send` replaces
with `IOT_VERSION`. -/
structure SendRequest where
  version : Nat := 0
  method : EIoTMethod
  id : Nat := 0
  path : Option (List Nat) := none
  headers : List (List Nat × List Nat) := []
  body : Option (List Nat) := none
  deriving DecidableEq, Repr

/-- Big-endian bytes of `n` in `w` bytes (what `writeUIntBE`-style calls
produce once the range check passed). -/
def beBytes (w n : Nat) : List Nat :=
  (List.range w).map (fun i => n / 256 ^ (w - 1 - i) % 256)

/-- The encoded `key RS value ETX` run of one header pair. -/
def headerPairBytes (kv : List Nat × List Nat) : List Nat :=
  kv.1 ++ [IOT_RS] ++ kv.2 ++ [IOT_ETX]

/-- `headerBuffer` for a non-empty header object: the count byte followed by
the encoded pairs. -/
def headerBytes (hs : List (List Nat × List Nat)) : List Nat :=
  hs.length % 256 :: (hs.map headerPairBytes).flatten

/-- The body-length field capacity check of `send`'s `switch`: the value the
method's `writeUInt8/16/32BE` call accepts. `ALIVE_*` write no length field
and accept anything. -/
def bodyLenFits : EIoTMethod → Nat → Prop
  | .SIGNAL, n => n ≤ 255
  | .BUFFER_SIZE_REQUEST, n => n ≤ 255
  | .BUFFER_SIZE_RESPONSE, n => n ≤ 255
  | .REQUEST, n => n ≤ 65535
  | .RESPONSE, n => n ≤ 65535
  | .STREAMING, n => n ≤ 4294967295
  | .ALIVE_REQUEST, _ => True
  | .ALIVE_RESPONSE, _ => True

instance (m : EIoTMethod) (n : Nat) : Decidable (bodyLenFits m n) := by
  cases m <;> simp only [bodyLenFits] <;> infer_instance

/-- Width of the body-length field `send` emits for a method (`ALIVE_*`
emit none). -/
def bodyLenWidth : EIoTMethod → Nat
  | .SIGNAL | .BUFFER_SIZE_REQUEST | .BUFFER_SIZE_RESPONSE => 1
  | .REQUEST | .RESPONSE => 2
  | .STREAMING => 4
  | .ALIVE_REQUEST | .ALIVE_RESPONSE => 0

/-- Whether the method's `switch` case adds `IOT_MSCB_ID` to `MSCB`. -/
def methodHasId : EIoTMethod → Bool
  | .REQUEST | .RESPONSE | .STREAMING => true
  | _ => false

/-- Whether the method's `switch` case adds `IOT_MSCB_PATH` when
`request.path` is truthy (a non-empty string). -/
def methodHasPath : EIoTMethod → Bool
  | .SIGNAL | .REQUEST | .STREAMING => true
  | _ => false

/-- Truthiness of `request.path`: present and non-empty. -/
def pathTruthy : Option (List Nat) → Bool
  | some (_ :: _) => true
  | _ => false

/-- The size guard `pathBuffer.length + headerBuffer.length >
bufferSize - 8` as JS evaluates it: `bufferSize` may be `NaN`
(`none`), and every comparison against `NaN` is false. -/
def jsGtBufferCheck (n : Nat) (bufferSize : Option Int) : Bool :=
  match bufferSize with
  | some b => decide ((n : Int) > b - 8)
  | none => false

/-- The pure part of `IoTProtocol.send` up to (and excluding) the writer
loop: builds `prefixDataBuffer` and `bodyBuffer`, or throws. `fresh` stands
for the value `generateRequestId` would return when `send` has to allocate
an id (the time-based allocator is impure; its contract — nonzero, below
10000, no collision — enters theorems as hypotheses on `fresh`). -/
def sendEncode (fresh : Nat) (bufferSize : Option Int) (r : SendRequest) :
    Except SendErr (List Nat × List Nat) := do
  let version := if r.version = 0 then 1 else r.version
  let mscb := (version <<< 2
      + (if methodHasId r.method then IOT_MSCB_ID else 0)
      + (if methodHasPath r.method ∧ pathTruthy r.path then IOT_MSCB_PATH else 0)) % 256
  let lscb := (r.method.code <<< 2
      + (if r.headers.length > 0 then IOT_LSCB_HEADER else 0)
      + (if r.body.isSome then IOT_LSCB_BODY else 0)) % 256
  -- the switch's body-length writes range-check their argument
  if r.body.isSome ∧ ¬ bodyLenFits r.method (r.body.getD []).length then
    throw .bodyLenRange
  let bodyLengthBuffer :=
    if r.body.isSome then beBytes (bodyLenWidth r.method) (r.body.getD []).length
    else []
  -- ID
  let id := if r.id = 0 then fresh else r.id
  let idBuffer ← if methodHasId r.method then
      if id > 65535 then throw SendErr.idRange else pure (beBytes 2 id)
    else pure []
  -- PATH
  let pathBuffer :=
    if methodHasPath r.method ∧ pathTruthy r.path then r.path.getD [] ++ [IOT_ETX]
    else []
  -- HEADERs
  let headerBuffer ← if r.headers.length > 0 then
      if r.headers.length > 255 then throw SendErr.tooManyHeaders
      else pure (headerBytes r.headers)
    else pure []
  if jsGtBufferCheck (pathBuffer.length + headerBuffer.length) bufferSize then
    throw .pathHeadersTooBig
  let bodyBuffer := r.body.getD []
  -- when the BODY flag is clear the length buffer is replaced by []
  let bodyLengthBuffer := if r.body.isSome then bodyLengthBuffer else []
  pure ([mscb, lscb] ++ idBuffer ++ pathBuffer ++ headerBuffer ++ bodyLengthBuffer,
    bodyBuffer)

instance : DecidableEq (Except SendErr (List Nat × List Nat)) := fun a b =>
  match a, b with
  | .error e, .error e' => decidable_of_iff (e = e')
      ⟨fun h => by rw [h], fun h => by cases h; rfl⟩
  | .ok v, .ok v' => decidable_of_iff (v = v')
      ⟨fun h => by rw [h], fun h => by cases h; rfl⟩
  | .error _, .ok _ => isFalse (fun h => by cases h)
  | .ok _, .error _ => isFalse (fun h => by cases h)

/-- The `writeBodyPart` fragmentation test
`(bodyBufferRemain + prefixDataBuffer.length) > bufferSize`: false when
`bufferSize` is `NaN`. -/
def jsNeedsSplit (x : Int) (bufferSize : Option Int) : Bool :=
  match bufferSize with
  | some b => decide (x > b)
  | none => false

/-- The recursion of `send`'s `writeBodyPart`: from body cursor `i` with
`parts` writes already issued, the list of buffers passed to
`client.write` and the final `parts` count. The cursor is `Int` because a
negative `bufferSize - prefix.length` step drives `i` negative in JS. The
TS recursion has no termination guarantee (it stalls when the cursor stops
advancing), so the model takes fuel and returns `none` when the fuel is
exhausted, letting nontermination be stated as `none` for every fuel. -/
def writeBodyPartGo (bufferSize : Option Int) (pfx body : List Nat) :
    Nat → Int → Nat → Option (List (List Nat) × Nat)
  | 0, _, _ => none
  | fuel + 1, i, parts =>
    let remain : Int := (body.length : Int) - i
    let untilIdx : Int :=
      match bufferSize with
      | some b =>
        if remain + (pfx.length : Int) > b then i + (b - (pfx.length : Int))
        else i + remain
      | none => i + remain
    let w := pfx ++ jsSub body i untilIdx
    let parts' := parts + 1
    if untilIdx ≥ (body.length : Int) then some ([w], parts')
    else
      match writeBodyPartGo bufferSize pfx body fuel untilIdx parts' with
      | some (ws, p) => some (w :: ws, p)
      | none => none

/-- `writeBodyPart()` as `send` invokes it (cursor 0, zero parts). -/
def writeBodyPart (bufferSize : Option Int) (pfx body : List Nat) (fuel : Nat) :
    Option (List (List Nat) × Nat) :=
  writeBodyPartGo bufferSize pfx body fuel 0 0

/-- A reassembly record of `multiPartControl` (the inactivity `timeout`
field is a constant reset on every fragment and is not part of the
`data`-event state machine). `received` is `Int`: the code can add a
negative `bodyLength` to it. -/
structure IoTMultiPart where
  parts : Nat
  received : Int
  deriving DecidableEq, Repr

/-- Association-list lookup for the JS objects used as `id ↦ entry` maps. -/
def alookup {α : Type} (m : List (Nat × α)) (k : Nat) : Option α :=
  match m with
  | [] => none
  | (k', v) :: rest => if k' = k then some v else alookup rest k

/-- Association-list update/insert (`table[id] = entry`). -/
def aset {α : Type} (m : List (Nat × α)) (k : Nat) (v : α) : List (Nat × α) :=
  match m with
  | [] => [(k, v)]
  | (k', v') :: rest => if k' = k then (k', v) :: rest else (k', v') :: aset rest k v

/-- Association-list removal (`delete table[id]`). -/
def adel {α : Type} (m : List (Nat × α)) (k : Nat) : List (Nat × α) :=
  match m with
  | [] => []
  | (k', v') :: rest => if k' = k then adel rest k else (k', v') :: adel rest k

/-- The per-connection protocol state of an `IoTClient` touched by `onData`:
the in-flight table (`id ↦` whether the descriptor has an `onResponse`
callback), the reassembly table, the remainder buffer, and the negotiated
buffer size (`none` = the `NaN` a corrupt BUFFER_SIZE_REQUEST produces). -/
structure IoTClientState where
  requestResponse : List (Nat × Bool)
  multiPartControl : List (Nat × IoTMultiPart)
  remainBuffer : Option (List Nat)
  bufferSize : Option Int
  deriving DecidableEq, Repr

/-- The state `listen` leaves a fresh connection in. -/
def initialState : IoTClientState :=
  { requestResponse := [], multiPartControl := [], remainBuffer := none,
    bufferSize := some (IOT_PROTOCOL_DEFAULT_BUFFER_SIZE : Nat) }

/-- The `request` object `onData` assembles (decoded frame). `method` is the
raw `LSCB >> 2` number, unvalidated as in the source; `body` is always
present (it is initialized to an empty `Buffer`); `bodyLength` and
`totalBodyLength` are `Int` because the 4-byte length read uses the 32-bit
`<<` and the end-index arithmetic can go negative. -/
structure ParsedRequest where
  version : Nat
  methodCode : Nat
  id : Nat
  path : Option (List Nat)
  headers : Option (List (List Nat × List Nat))
  body : List Nat
  bodyLength : Int
  totalBodyLength : Int
  deriving DecidableEq, Repr

/-- The initial `request` literal of `onData`. -/
def defaultParsed : ParsedRequest :=
  { version := 1, methodCode := 1, id := 0, path := none, headers := none,
    body := [], bodyLength := 0, totalBodyLength := 0 }

/-- Everything one `onData` call does: the new state, the assembled request,
whether it threw (a Node range error on a read), the inline
ALIVE_RESPONSE and BUFFER_SIZE_RESPONSE send attempts, whether
`scheduleNextAliveRequest` was re-armed, the middleware dispatch, the
pending-response branch and whether it invoked `onResponse`, and the
`requestCompleted` flag. -/
structure OnDataResult where
  state : IoTClientState
  request : ParsedRequest
  threw : Bool
  aliveResponse : Option (Except SendErr (List Nat × List Nat))
  aliveTimerReset : Bool
  middlewareRun : Option ParsedRequest
  responseBranch : Option ParsedRequest
  onResponseInvoked : Bool
  requestCompleted : Bool
  bufferSizeEcho : Option (Except SendErr (List Nat × List Nat))
  deriving DecidableEq, Repr

/-- Outcome of an `onData` call that returned or threw before doing
anything observable. -/
def inertResult (st : IoTClientState) (req : ParsedRequest) (threw : Bool) :
    OnDataResult :=
  { state := st, request := req, threw := threw, aliveResponse := none,
    aliveTimerReset := false, middlewareRun := none, responseBranch := none,
    onResponseInvoked := false, requestCompleted := true, bufferSizeEcho := none }

/-- `bodyLengthSize` selected by `onData`'s `switch` on the decoded method
number: SIGNAL and BUFFER_SIZE_* use 1 byte, STREAMING 4, everything else
(including unknown codes) the default 2. -/
def bodyLengthSize (methodCode : Nat) : Nat :=
  if methodCode = 1 ∨ methodCode = 7 ∨ methodCode = 8 then 1
  else if methodCode = 4 then 4 else 2

/-- JS 32-bit truncation: the value of `ToInt32` on a (nonnegative)
number. -/
def toInt32 (n : Nat) : Int :=
  let m := n % 4294967296
  if m < 2147483648 then (m : Int) else (m : Int) - 4294967296

/-- One term `buffer[++offset] << ((i - 1) * 8)` of the body-length
accumulation: the JS `<<` yields an Int32, so the high byte of a 4-byte
length can contribute a negative value. -/
def jsShlTerm (b shift : Nat) : Int := toInt32 (b <<< shift)

/-- The decoded body-length field: `k` bytes at `offset + 1 …`, big-endian,
each shifted with the 32-bit `<<`. Out-of-range bytes read as `undefined`
and shift to 0. -/
def readLenBE (buffer : List Nat) (offset k : Nat) : Int :=
  (List.range k).foldl
    (fun acc i => acc + jsShlTerm (jsByte buffer (offset + 1 + i)) ((k - 1 - i) * 8)) 0

/-- The header-scanning `while` of `onData`. The loop's claim to progress is
that each iteration moves `offset` past the next ETX; the fuel
`buffer.length + 1` strictly dominates the possible iteration count, so the
fuel-out branch is unreachable (each iteration advances `offset` by at
least 2 and `offset` never exceeds the buffer length). -/
def headerLoop (buffer : List Nat) (headerSize : Nat) :
    Nat → List (List Nat × List Nat) → Nat → List (List Nat × List Nat) × Nat
  | 0, hdrs, offset => (hdrs, offset)
  | fuel + 1, hdrs, offset =>
    let idxRS := jsIndexOf buffer IOT_RS offset
    let idxETX := jsIndexOf buffer IOT_ETX (offset + 1)
    if idxRS ≠ 0 ∧ idxETX ≠ -1 ∧ idxRS < idxETX - 1 then
      let key := jsSub buffer (offset : Int) idxRS
      let val := jsSub buffer (idxRS + 1) idxETX
      let hdrs' := jsInsert hdrs key val
      let offset' := idxETX.toNat + 1
      if hdrs'.length = headerSize then (hdrs', offset')
      else headerLoop buffer headerSize fuel hdrs' offset'
    else (hdrs, offset)

/-- `(request.body![0] << 24) + (request.body![1] << 16) +
(request.body![2] << 8) + request.body![3]`: with fewer than 4 body bytes
the last, unshifted term is `undefined` and the sum is `NaN` (`none`);
otherwise the first term is a 32-bit shift that can be negative. -/
def bufferSizeOfBody (body : List Nat) : Option Int :=
  if 4 ≤ body.length then
    some (jsShlTerm (jsByte body 0) 24 + jsShlTerm (jsByte body 1) 16
      + jsShlTerm (jsByte body 2) 8 + (jsByte body 3 : Int))
  else none

/-- The request `aliveResponse` sends: method ALIVE_RESPONSE, id forced to
0, path/headers/body deleted. -/
def aliveResponseRequest : SendRequest := { method := .ALIVE_RESPONSE }

/-- The response object `bufferSizeResponse` builds from the inbound
request: method BUFFER_SIZE_RESPONSE, the inbound id and body, no
version/path/headers. -/
def bufferSizeEchoRequest (id : Nat) (body : List Nat) : SendRequest :=
  { method := .BUFFER_SIZE_RESPONSE, id := id, body := some body }

/-- What the `/* BODY */` block computes when the BODY flag is set: the
state with the reassembly table and remainder updated, the extracted body,
the declared total, the fragment's `bodyLength`, and the completion flag. -/
structure BodyOutcome where
  st1 : IoTClientState
  body : List Nat
  totalBodyLength : Int
  bodyLength : Int
  completed : Bool
  deriving DecidableEq, Repr

/-- The `/* BODY */` block of `onData` (entered with the BODY flag set).
`offset` is the TS `offset` value on entry. -/
def bodyPhase (st : IoTClientState) (buffer : List Nat)
    (methodCode id offset : Nat) : BodyOutcome :=
  let k := bodyLengthSize methodCode
  let decl := readLenBE buffer offset k
  let offset := offset + k + 1
  let bodyIncomeLength : Int := (buffer.length : Int) - (offset : Int)
  let mpc0 : IoTMultiPart :=
    (alookup st.multiPartControl id).getD { parts := 0, received := 0 }
  let bodyEnd0 : Int := (offset : Int) + decl - mpc0.received
  let bodyEnd : Int :=
    if bodyEnd0 > (buffer.length : Int) then (buffer.length : Int) else bodyEnd0
  let bodyLength : Int := bodyEnd - (offset : Int)
  let received' := mpc0.received + bodyLength
  let completed : Bool := !decide (received' < decl)
  let mpcTable :=
    if completed then adel st.multiPartControl id
    else aset st.multiPartControl id
      { parts := mpc0.parts + 1, received := received' }
  let remain :=
    if bodyIncomeLength > bodyLength then some (jsSubFrom buffer bodyEnd)
    else st.remainBuffer
  let body := jsSub buffer (offset : Int) bodyEnd
  { st1 := { st with multiPartControl := mpcTable, remainBuffer := remain },
    body := body, totalBodyLength := decl, bodyLength := bodyLength,
    completed := completed }

/-- The tail of `onData` after the BODY block: the
`/* Response Response */` dispatch, the keep-alive re-arm, and the
BUFFER_SIZE_REQUEST bufferSize overwrite plus echo. -/
def onDataDispatch (st1 : IoTClientState) (parsed : ParsedRequest)
    (completed : Bool) : OnDataResult :=
  let dispatch : IoTClientState × Option ParsedRequest × Option ParsedRequest × Bool :=
    match alookup st1.requestResponse parsed.id with
    | some hasOnResponse =>
      let rr' := if completed then adel st1.requestResponse parsed.id
        else st1.requestResponse
      ({ st1 with requestResponse := rr' }, none, some parsed, hasOnResponse)
    | none =>
      if parsed.methodCode = 1 ∨ parsed.methodCode = 2 ∨ parsed.methodCode = 4 then
        (st1, some parsed, none, false)
      else (st1, none, none, false)
  let st2 := dispatch.1
  -- BUFFER_SIZE_REQUEST: overwrite `bufferSize`, then echo
  let st3 :=
    if parsed.methodCode = 7 then
      { st2 with bufferSize := bufferSizeOfBody parsed.body }
    else st2
  let echo :=
    if parsed.methodCode = 7 then
      some (sendEncode 1 st3.bufferSize (bufferSizeEchoRequest parsed.id parsed.body))
    else none
  { state := st3, request := parsed, threw := false, aliveResponse := none,
    aliveTimerReset := true, middlewareRun := dispatch.2.1,
    responseBranch := dispatch.2.2.1, onResponseInvoked := dispatch.2.2.2,
    requestCompleted := completed, bufferSizeEcho := echo }

/-- `onData` from the `/* BODY */` comment down, dispatching on the BODY
flag. When the flag is clear the request keeps the initial empty body and
zero lengths and counts as completed. -/
def onDataBody (st : IoTClientState) (buffer : List Nat)
    (lscb version methodCode id : Nat) (path : Option (List Nat))
    (headers : Option (List (List Nat × List Nat))) (offset : Nat) :
    OnDataResult :=
  if lscb &&& IOT_LSCB_BODY ≠ 0 then
    let b := bodyPhase st buffer methodCode id offset
    onDataDispatch b.st1
      { version := version, methodCode := methodCode, id := id, path := path,
        headers := headers, body := b.body, bodyLength := b.bodyLength,
        totalBodyLength := b.totalBodyLength } b.completed
  else
    onDataDispatch st
      { version := version, methodCode := methodCode, id := id, path := path,
        headers := headers, body := [], bodyLength := 0, totalBodyLength := 0 }
      true

/-- The `/* PATH */` block: the `++offset` happens whether or not an ETX
is found; on success the path bytes are extracted and `offset` moves to
the ETX. Returns the path and the new `offset`. -/
def pathPhase (buffer : List Nat) (mscb offset : Nat) :
    Option (List Nat) × Nat :=
  if mscb &&& IOT_MSCB_PATH ≠ 0 then
    let searchFrom := offset + 1
    let idx := jsIndexOf buffer IOT_ETX searchFrom
    if idx > -1 then (some (jsSub buffer (searchFrom : Int) idx), idx.toNat)
    else (none, searchFrom)
  else (none, offset)

/-- `onData` from the `/* PATH */` comment down to the BODY block: path
scan and header loop (including the `readUInt8` that can throw), handing
over to `onDataBody`. -/
def onDataAfterId (st : IoTClientState) (buffer : List Nat)
    (mscb lscb version methodCode id offset : Nat) : OnDataResult :=
  let path := (pathPhase buffer mscb offset).1
  let offset := (pathPhase buffer mscb offset).2
  -- `/* HEADER */`
  if lscb &&& IOT_LSCB_HEADER ≠ 0 then
    let offset := offset + 1
    if buffer.length ≤ offset then
      -- `buffer.readUInt8(offset)` out of range
      let req : ParsedRequest :=
        { defaultParsed with
          version := version,
          methodCode := methodCode,
          id := id,
          path := path,
          headers := some [] }
      inertResult st req true
    else
      let headerSize := jsByte buffer offset
      let hl := headerLoop buffer headerSize (buffer.length + 1) [] (offset + 1)
      onDataBody st buffer lscb version methodCode id path (some hl.1) (hl.2 - 1)
  else onDataBody st buffer lscb version methodCode id path none offset

/-- `IoTProtocol.onData` on one buffer. -/
def onData (st : IoTClientState) (buffer : List Nat) : OnDataResult :=
  if buffer.length < 2 then inertResult st defaultParsed false
  else
    let mscb := jsByte buffer 0
    let lscb := jsByte buffer 1
    let version := mscb >>> 2
    let methodCode := lscb >>> 2
    -- `/* Alive Method */`: answered inline, timer re-armed, and `return`
    if methodCode = 5 then
      { state := st,
        request := { defaultParsed with version := version, methodCode := methodCode },
        threw := false,
        aliveResponse := some (sendEncode 1 st.bufferSize aliveResponseRequest),
        aliveTimerReset := true, middlewareRun := none, responseBranch := none,
        onResponseInvoked := false, requestCompleted := true,
        bufferSizeEcho := none }
    else
      -- `/* ID */`: guarded by `buffer.length >= offset + 2` with
      -- `offset = 1`, but `readUInt16BE(2)` needs four bytes and throws on a
      -- three-byte buffer
      if mscb &&& IOT_MSCB_ID ≠ 0 ∧ 3 ≤ buffer.length then
        if buffer.length < 4 then
          inertResult st
            { defaultParsed with version := version, methodCode := methodCode }
            true
        else
          onDataAfterId st buffer mscb lscb version methodCode
            (jsByte buffer 2 * 256 + jsByte buffer 3) 3
      else
        onDataAfterId st buffer mscb lscb version methodCode 0 1

/-- The `data` handler `readClient` installs: a non-null non-empty
`remainBuffer` is prepended (and reset) before `onData` runs. -/
def dataEvent (st : IoTClientState) (chunk : List Nat) : OnDataResult :=
  match st.remainBuffer with
  | some rb =>
    if rb.length > 0 then onData { st with remainBuffer := none } (rb ++ chunk)
    else onData st chunk
  | none => onData st chunk

/-- The logical requests one `data` event hands upward: the request passed
to the pending-response branch and/or to the middleware chain. -/
def delivered (r : OnDataResult) : List ParsedRequest :=
  r.responseBranch.toList ++ r.middlewareRun.toList

/-- Feeding a sequence of `data` events: final state and the concatenated
deliveries. -/
def processChunks (st : IoTClientState) :
    List (List Nat) → IoTClientState × List ParsedRequest
  | [] => (st, [])
  | c :: cs =>
    let r := dataEvent st c
    let rest := processChunks r.state cs
    (rest.1, delivered r ++ rest.2)

/-- `IoTProtocol.send` including its state effect: on encode success the
response descriptor (when given, with its `onResponse` presence) is filed
under the resolved id, and the writer loop runs; on a throw nothing is
written and no state changes (the throws all precede the insertion and the
first `client.write`). -/
def sendRun (st : IoTClientState) (fresh : Nat) (r : SendRequest)
    (descriptor : Option Bool) (fuel : Nat) :
    Except SendErr (IoTClientState × Option (List (List Nat) × Nat)) :=
  match sendEncode fresh st.bufferSize r with
  | .error e => .error e
  | .ok (pfx, body) =>
    let id := if methodHasId r.method ∧ r.id = 0 then fresh else r.id
    let st' := match descriptor with
      | some hasOnResponse =>
        { st with requestResponse := aset st.requestResponse id hasOnResponse }
      | none => st
    .ok (st', writeBodyPart st.bufferSize pfx body fuel)

/-- The request `aliveRequest` sends when the keep-alive timer fires:
method ALIVE_REQUEST, id forced to 0, path/headers/body deleted, and a
descriptor with `onTimeout` only (no `onResponse`). -/
def aliveRequestSend (st : IoTClientState) (fresh fuel : Nat) :
    Except SendErr (IoTClientState × Option (List (List Nat) × Nat)) :=
  sendRun st fresh { method := .ALIVE_REQUEST } (some false) fuel

/-- The outbound request a decoded `onData` request denotes when handed
back to `send`: the raw method number must denote an enum member; the
always-present decoded body stays present, absent headers become the empty
object (indistinguishable to `send`). -/
def parsedToSend (p : ParsedRequest) : Option SendRequest :=
  (methodOfNat p.methodCode).map fun m =>
    { version := p.version, method := m, id := p.id, path := p.path,
      headers := p.headers.getD [], body := some p.body }

/-! ## Helper lemmas about the association-list maps -/

theorem alookup_aset_self {α : Type} (m : List (Nat × α)) (k : Nat) (v : α) :
    alookup (aset m k v) k = some v := by
  induction m with
  | nil => simp [aset, alookup]
  | cons hd tl ih =>
    by_cases h : hd.1 = k
    · simp [aset, alookup, h]
    · simp [aset, alookup, h, ih]

/-! ## C5: the worked REQUEST encoding of the spec -/

/-- C5: encoding a REQUEST with id 276, path "/a", single header
`foo: bar` and body "hi" produces exactly the control bytes 0x07 0x0B, the
id bytes 0x01 0x14, the path `/a` + ETX, the header block
`0x01 f o o RS b a r ETX`, the length field 0x00 0x02 and the body `hi`,
and the writer loop emits them as one write. -/
theorem C5_request_encoding_bytes :
    sendEncode 1 (some 1024)
      { method := .REQUEST, id := 276, path := some [47, 97],
        headers := [([102, 111, 111], [98, 97, 114])], body := some [104, 105] }
      = .ok ([0x07, 0x0B, 0x01, 0x14, 47, 97, 0x03, 0x01, 102, 111, 111, 0x1E,
              98, 97, 114, 0x03, 0x00, 0x02], [104, 105])
    ∧ writeBodyPart (some 1024)
        [0x07, 0x0B, 0x01, 0x14, 47, 97, 0x03, 0x01, 102, 111, 111, 0x1E,
          98, 97, 114, 0x03, 0x00, 0x02] [104, 105] 3
      = some ([[0x07, 0x0B, 0x01, 0x14, 47, 97, 0x03, 0x01, 102, 111, 111, 0x1E,
          98, 97, 114, 0x03, 0x00, 0x02, 104, 105]], 1) := by
  exact ⟨by decide, by decide⟩

/-! ## C7: BUFFER_SIZE_REQUEST with body 0 -/

/-- C7: receiving a BUFFER_SIZE_REQUEST whose 4-byte big-endian body
encodes 0 sets the receiver's `bufferSize` to the raw value 0 — it is not
restored to the default 1024 — and the attempted BUFFER_SIZE_RESPONSE echo
is rejected by the encode size check against the freshly-zeroed
`bufferSize` (`0 > 0 - 8`), so no response is written. This contradicts
the README ("To set to default value (1024) set body to 0"), which the
claim restates. -/
theorem C7_buffer_size_zero_sets_zero_and_echo_throws :
    (onData initialState [4, 29, 4, 0, 0, 0, 0]).request.body = [0, 0, 0, 0]
    ∧ (onData initialState [4, 29, 4, 0, 0, 0, 0]).request.methodCode = 7
    ∧ (onData initialState [4, 29, 4, 0, 0, 0, 0]).state.bufferSize = some 0
    ∧ (onData initialState [4, 29, 4, 0, 0, 0, 0]).state.bufferSize ≠ some 1024
    ∧ (onData initialState [4, 29, 4, 0, 0, 0, 0]).bufferSizeEcho
        = some (.error .pathHeadersTooBig) := by
  refine ⟨by decide, by decide, by decide, by decide, by decide⟩

/-! ## Per-event delivery and dispatch lemmas -/

theorem delivered_dispatch_le_one (st1 : IoTClientState) (parsed : ParsedRequest) (c : Bool) :
    (delivered (onDataDispatch st1 parsed c)).length ≤ 1 := by
  unfold onDataDispatch delivered
  cases h : alookup st1.requestResponse parsed.id <;> simp [h] <;> split_ifs <;> simp

theorem delivered_onDataBody_le_one (st : IoTClientState) (buffer : List Nat)
    (lscb version methodCode id : Nat) (path : Option (List Nat))
    (headers : Option (List (List Nat × List Nat))) (offset : Nat) :
    (delivered (onDataBody st buffer lscb version methodCode id path headers offset)).length ≤ 1 := by
  unfold onDataBody
  split_ifs <;> apply delivered_dispatch_le_one

theorem delivered_onDataAfterId_le_one (st : IoTClientState) (buffer : List Nat)
    (mscb lscb version methodCode id offset : Nat) :
    (delivered (onDataAfterId st buffer mscb lscb version methodCode id offset)).length ≤ 1 := by
  unfold onDataAfterId
  by_cases h1 : lscb &&& IOT_LSCB_HEADER ≠ 0
  · simp only [if_pos h1]
    by_cases h2 : buffer.length ≤ (pathPhase buffer mscb offset).2 + 1
    · simp [h2, delivered, inertResult]
    · simp only [if_neg h2]
      apply delivered_onDataBody_le_one
  · simp only [if_neg h1]
    apply delivered_onDataBody_le_one

theorem delivered_onData_le_one (st : IoTClientState) (buffer : List Nat) :
    (delivered (onData st buffer)).length ≤ 1 := by
  unfold onData
  by_cases h2 : buffer.length < 2
  · simp [h2, delivered, inertResult]
  · simp only [if_neg h2]
    by_cases h5 : jsByte buffer 1 >>> 2 = 5
    · simp [h5, delivered]
    · simp only [if_neg h5]
      by_cases hid : jsByte buffer 0 &&& IOT_MSCB_ID ≠ 0 ∧ 3 ≤ buffer.length
      · simp only [if_pos hid]
        by_cases h4 : buffer.length < 4
        · simp [h4, delivered, inertResult]
        · simp only [if_neg h4]
          apply delivered_onDataAfterId_le_one
      · simp only [if_neg hid]
        apply delivered_onDataAfterId_le_one

theorem delivered_dataEvent_le_one (st : IoTClientState) (chunk : List Nat) :
    (delivered (dataEvent st chunk)).length ≤ 1 := by
  unfold dataEvent
  cases st.remainBuffer
  · apply delivered_onData_le_one
  · dsimp only
    split_ifs <;> apply delivered_onData_le_one

theorem sendEncode_aliveResponse (bs : Option Int) (h : jsGtBufferCheck 0 bs = false) :
    sendEncode 1 bs aliveResponseRequest = .ok ([4, 24], []) := by
  simp [sendEncode, aliveResponseRequest, h, bodyLenFits, methodHasId, methodHasPath,
    pathTruthy, beBytes, bodyLenWidth, EIoTMethod.code, IOT_LSCB_HEADER, IOT_LSCB_BODY,
    pure, Except.pure, bind, Except.bind, throw, throwThe, MonadExceptOf.throw]

/-- C6 (amended): for every inbound buffer whose method field decodes to
ALIVE_REQUEST, the engine immediately attempts an ALIVE_RESPONSE (the two
bytes `[4, 24]`, sent whenever the encode size check passes for the current
`bufferSize`), re-arms the keep-alive timer, runs no middleware, touches no
state, and delivers nothing — the *entire* buffer is consumed: trailing
bytes after the two control bytes are discarded (`onData` returns before
any remainder handling), not processed as a next frame. -/
theorem C6_alive_inline (st : IoTClientState) (mscb lscb : Nat) (rest : List Nat)
    (hm : lscb >>> 2 = 5)
    (hbs : jsGtBufferCheck 0 st.bufferSize = false) :
    (onData st (mscb :: lscb :: rest)).aliveResponse = some (.ok ([4, 24], []))
    ∧ (onData st (mscb :: lscb :: rest)).aliveTimerReset = true
    ∧ (onData st (mscb :: lscb :: rest)).middlewareRun = none
    ∧ (onData st (mscb :: lscb :: rest)).responseBranch = none
    ∧ (onData st (mscb :: lscb :: rest)).state = st
    ∧ delivered (onData st (mscb :: lscb :: rest)) = [] := by
  have h2 : ¬ (mscb :: lscb :: rest).length < 2 := by simp
  have hb1 : jsByte (mscb :: lscb :: rest) 1 = lscb := rfl
  unfold onData
  rw [if_neg h2]
  simp only [hb1, hm, if_pos rfl]
  simp [delivered, sendEncode_aliveResponse st.bufferSize hbs]

/-- C10: on receiving a frame whose method decodes to BUFFER_SIZE_REQUEST
but whose LSCB BODY flag is clear (here with the ID/PATH/HEADER flags also
clear, so the frame parses straight through), the parsed body is empty and
`onData` still evaluates `body[0] << 24 + … + body[3]` on it: in the model
the out-of-bounds indexing makes `bufferSizeOfBody` come out `none` (the
JS sum is `NaN`) and the stored `bufferSize` is corrupted to that value. -/
theorem C10_empty_body_corrupts (st : IoTClientState) (mscb lscb : Nat) (rest : List Nat)
    (hm : lscb >>> 2 = 7) (hbody : lscb &&& IOT_LSCB_BODY = 0)
    (hhdr : lscb &&& IOT_LSCB_HEADER = 0)
    (hid : mscb &&& IOT_MSCB_ID = 0) (hpath : mscb &&& IOT_MSCB_PATH = 0) :
    (onData st (mscb :: lscb :: rest)).request.body = []
    ∧ (onData st (mscb :: lscb :: rest)).request.methodCode = 7
    ∧ bufferSizeOfBody (onData st (mscb :: lscb :: rest)).request.body = none
    ∧ (onData st (mscb :: lscb :: rest)).state.bufferSize = none := by
  have h2 : ¬ (mscb :: lscb :: rest).length < 2 := by simp
  have hb0 : jsByte (mscb :: lscb :: rest) 0 = mscb := rfl
  have hb1 : jsByte (mscb :: lscb :: rest) 1 = lscb := rfl
  unfold onData
  rw [if_neg h2]
  simp only [hb0, hb1, hm]
  rw [if_neg (by decide : ¬ (7 : Nat) = 5)]
  rw [if_neg (by simp [hid])]
  unfold onDataAfterId pathPhase
  simp only [hpath, hhdr]
  rw [if_neg (by simp)]
  rw [if_neg (by simp)]
  unfold onDataBody
  rw [if_neg (by simp [hbody])]
  unfold onDataDispatch
  cases halk : alookup st.requestResponse 0 <;>
    simp [halk, bufferSizeOfBody]

theorem alookup_adel_self {α : Type} (m : List (Nat × α)) (k : Nat) :
    alookup (adel m k) k = none := by
  induction m with
  | nil => simp [adel, alookup]
  | cons hd tl ih =>
    by_cases h : hd.1 = k
    · simp [adel, h, ih]
    · simp [adel, alookup, h, ih]

theorem bodyPhase_st1_requestResponse (st : IoTClientState) (buffer : List Nat)
    (methodCode id offset : Nat) :
    (bodyPhase st buffer methodCode id offset).st1.requestResponse
      = st.requestResponse := rfl

theorem bodyPhase_st1_multiPart (st : IoTClientState) (buffer : List Nat)
    (methodCode id offset : Nat) :
    (bodyPhase st buffer methodCode id offset).st1.multiPartControl
      = (if (bodyPhase st buffer methodCode id offset).completed
          then adel st.multiPartControl id
          else aset st.multiPartControl id
            { parts := ((alookup st.multiPartControl id).getD
                { parts := 0, received := 0 }).parts + 1,
              received := ((alookup st.multiPartControl id).getD
                { parts := 0, received := 0 }).received
                + (bodyPhase st buffer methodCode id offset).bodyLength }) := rfl

theorem bodyPhase_completed_iff (st : IoTClientState) (buffer : List Nat)
    (methodCode id offset : Nat) :
    ((bodyPhase st buffer methodCode id offset).completed = true
      ↔ ¬ ((alookup st.multiPartControl id).getD { parts := 0, received := 0 }).received
            + (bodyPhase st buffer methodCode id offset).bodyLength
          < (bodyPhase st buffer methodCode id offset).totalBodyLength) := by
  simp [bodyPhase]

theorem onDataDispatch_pending (st1 : IoTClientState) (parsed : ParsedRequest)
    (c : Bool) (hasOR : Bool)
    (h : alookup st1.requestResponse parsed.id = some hasOR) :
    (onDataDispatch st1 parsed c).middlewareRun = none
    ∧ (onDataDispatch st1 parsed c).responseBranch = some parsed
    ∧ (onDataDispatch st1 parsed c).onResponseInvoked = hasOR
    ∧ (onDataDispatch st1 parsed c).requestCompleted = c
    ∧ (onDataDispatch st1 parsed c).request = parsed
    ∧ (onDataDispatch st1 parsed c).state.requestResponse
        = (if c then adel st1.requestResponse parsed.id else st1.requestResponse) := by
  unfold onDataDispatch
  split_ifs <;> simp [h]

theorem onDataDispatch_multiPart (st1 : IoTClientState) (parsed : ParsedRequest)
    (c : Bool) :
    (onDataDispatch st1 parsed c).state.multiPartControl = st1.multiPartControl := by
  unfold onDataDispatch
  cases h : alookup st1.requestResponse parsed.id <;> split_ifs <;> simp [h]

theorem onDataDispatch_request (st1 : IoTClientState) (parsed : ParsedRequest)
    (c : Bool) :
    (onDataDispatch st1 parsed c).request = parsed
    ∧ (onDataDispatch st1 parsed c).requestCompleted = c
    ∧ (onDataDispatch st1 parsed c).threw = false := by
  unfold onDataDispatch
  cases h : alookup st1.requestResponse parsed.id <;> split_ifs <;> simp [h]

theorem onData_shape (st : IoTClientState) (mscb lscb : Nat) (rest : List Nat)
    (hm : lscb >>> 2 ≠ 5) :
    (onData st (mscb :: lscb :: rest)).threw = true
    ∨ ∃ id path headers offset,
        onData st (mscb :: lscb :: rest)
          = onDataBody st (mscb :: lscb :: rest) lscb (mscb >>> 2) (lscb >>> 2)
              id path headers offset
        ∧ (mscb &&& IOT_MSCB_ID = 0 → id = 0) := by
  have h2 : ¬ (mscb :: lscb :: rest).length < 2 := by simp
  have hb0 : jsByte (mscb :: lscb :: rest) 0 = mscb := rfl
  have hb1 : jsByte (mscb :: lscb :: rest) 1 = lscb := rfl
  unfold onData
  rw [if_neg h2]
  simp only [hb0, hb1]
  rw [if_neg hm]
  by_cases hid : mscb &&& IOT_MSCB_ID ≠ 0 ∧ 3 ≤ (mscb :: lscb :: rest).length
  · rw [if_pos hid]
    by_cases h4 : (mscb :: lscb :: rest).length < 4
    · rw [if_pos h4]
      exact Or.inl rfl
    · rw [if_neg h4]
      unfold onDataAfterId
      by_cases hh : lscb &&& IOT_LSCB_HEADER ≠ 0
      · rw [if_pos hh]
        by_cases hlen : (mscb :: lscb :: rest).length
            ≤ (pathPhase (mscb :: lscb :: rest) mscb 3).2 + 1
        · rw [if_pos hlen]
          exact Or.inl rfl
        · rw [if_neg hlen]
          exact Or.inr ⟨_, _, _, _, rfl, fun hc => absurd hc hid.1⟩
      · rw [if_neg hh]
        exact Or.inr ⟨_, _, _, _, rfl, fun hc => absurd hc hid.1⟩
  · rw [if_neg hid]
    unfold onDataAfterId
    by_cases hh : lscb &&& IOT_LSCB_HEADER ≠ 0
    · rw [if_pos hh]
      by_cases hlen : (mscb :: lscb :: rest).length
          ≤ (pathPhase (mscb :: lscb :: rest) mscb 1).2 + 1
      · rw [if_pos hlen]
        exact Or.inl rfl
      · rw [if_neg hlen]
        exact Or.inr ⟨_, _, _, _, rfl, fun _ => rfl⟩
    · rw [if_neg hh]
      exact Or.inr ⟨_, _, _, _, rfl, fun _ => rfl⟩

theorem onDataDispatch_nopending (st1 : IoTClientState) (parsed : ParsedRequest)
    (c : Bool) (h : alookup st1.requestResponse parsed.id = none) :
    (onDataDispatch st1 parsed c).middlewareRun
      = (if parsed.methodCode = 1 ∨ parsed.methodCode = 2 ∨ parsed.methodCode = 4
          then some parsed else none)
    ∧ (onDataDispatch st1 parsed c).responseBranch = none
    ∧ (onDataDispatch st1 parsed c).state.requestResponse = st1.requestResponse := by
  unfold onDataDispatch
  split_ifs <;> simp_all

theorem onDataBody_pending (st : IoTClientState) (buffer : List Nat)
    (lscb version methodCode id : Nat) (path : Option (List Nat))
    (headers : Option (List (List Nat × List Nat))) (offset : Nat) (hasOR : Bool)
    (hpend : alookup st.requestResponse id = some hasOR) :
    (onDataBody st buffer lscb version methodCode id path headers offset).middlewareRun = none
    ∧ (onDataBody st buffer lscb version methodCode id path headers offset).responseBranch
        = some (onDataBody st buffer lscb version methodCode id path headers offset).request
    ∧ (onDataBody st buffer lscb version methodCode id path headers offset).request.id = id
    ∧ (onDataBody st buffer lscb version methodCode id path headers offset).onResponseInvoked = hasOR
    ∧ ((onDataBody st buffer lscb version methodCode id path headers offset).requestCompleted = true →
        alookup (onDataBody st buffer lscb version methodCode id path headers offset).state.requestResponse id = none) := by
  unfold onDataBody
  by_cases hb : lscb &&& IOT_LSCB_BODY ≠ 0
  · rw [if_pos hb]
    have hrr := bodyPhase_st1_requestResponse st buffer methodCode id offset
    obtain ⟨hm, hr, hi, hc, hreq, hsrr⟩ :=
      onDataDispatch_pending (bodyPhase st buffer methodCode id offset).st1
        { version := version, methodCode := methodCode, id := id, path := path,
          headers := headers, body := (bodyPhase st buffer methodCode id offset).body,
          bodyLength := (bodyPhase st buffer methodCode id offset).bodyLength,
          totalBodyLength := (bodyPhase st buffer methodCode id offset).totalBodyLength }
        (bodyPhase st buffer methodCode id offset).completed hasOR
        (by rw [hrr]; exact hpend)
    refine ⟨hm, by rw [hr, hreq], by rw [hreq], hi, fun hcompl => ?_⟩
    rw [hsrr, hrr]
    rw [hc] at hcompl
    rw [if_pos hcompl]
    exact alookup_adel_self _ _
  · rw [if_neg hb]
    obtain ⟨hm, hr, hi, hc, hreq, hsrr⟩ :=
      onDataDispatch_pending st
        { version := version, methodCode := methodCode, id := id, path := path,
          headers := headers, body := [], bodyLength := 0, totalBodyLength := 0 }
        true hasOR hpend
    refine ⟨hm, by rw [hr, hreq], by rw [hreq], hi, fun _ => ?_⟩
    rw [hsrr, if_pos rfl]
    exact alookup_adel_self _ _

/-- C9: a pending alive request is filed in the in-flight table under id 0
(first conjunct: any successfully sent `aliveRequest` leaves an entry at
key 0, with no `onResponse`); and every inbound frame that parses without
throwing, is not itself an ALIVE_REQUEST, and has the MSCB ID flag clear
decodes with id 0, so while that entry exists the frame is consumed by the
pending-response branch: no middleware runs, the branch receives the
request, `onResponse` is invoked iff the descriptor has one, and on
completion the entry at 0 is deleted. -/
theorem C9_pending_alive_consumes_idless :
    (∀ (st : IoTClientState) (fresh fuel : Nat) (st' : IoTClientState)
        (w : Option (List (List Nat) × Nat)),
      aliveRequestSend st fresh fuel = .ok (st', w) →
        alookup st'.requestResponse 0 = some false)
    ∧ (∀ (st : IoTClientState) (mscb lscb : Nat) (rest : List Nat) (hasOR : Bool),
        lscb >>> 2 ≠ 5 →
        mscb &&& IOT_MSCB_ID = 0 →
        alookup st.requestResponse 0 = some hasOR →
        (onData st (mscb :: lscb :: rest)).threw = false →
          (onData st (mscb :: lscb :: rest)).middlewareRun = none
          ∧ (onData st (mscb :: lscb :: rest)).responseBranch
              = some (onData st (mscb :: lscb :: rest)).request
          ∧ (onData st (mscb :: lscb :: rest)).request.id = 0
          ∧ (onData st (mscb :: lscb :: rest)).onResponseInvoked = hasOR
          ∧ ((onData st (mscb :: lscb :: rest)).requestCompleted = true →
              alookup (onData st (mscb :: lscb :: rest)).state.requestResponse 0
                = none)) := by
  constructor
  · intro st fresh fuel st' w h
    unfold aliveRequestSend sendRun at h
    cases he : sendEncode fresh st.bufferSize { method := .ALIVE_REQUEST } with
    | error e => rw [he] at h; cases h
    | ok pb =>
      rw [he] at h
      simp only [methodHasId, false_and, if_neg] at h
      cases h
      exact alookup_aset_self _ _ _
  · intro st mscb lscb rest hasOR hm hid hpend hthrew
    rcases onData_shape st mscb lscb rest hm with hth | ⟨id, path, headers, offset, heq, hid0⟩
    · rw [hth] at hthrew; cases hthrew
    · rw [hid0 hid] at heq
      rw [heq]
      exact onDataBody_pending st _ lscb _ _ 0 path headers offset hasOR hpend

theorem onDataBody_mpc (st : IoTClientState) (buffer : List Nat)
    (lscb version methodCode id : Nat) (path : Option (List Nat))
    (headers : Option (List (List Nat × List Nat))) (offset : Nat)
    (hb : lscb &&& IOT_LSCB_BODY ≠ 0) :
    (onDataBody st buffer lscb version methodCode id path headers offset).request.id = id
    ∧ (alookup (onDataBody st buffer lscb version methodCode id path headers offset).state.multiPartControl id = none
        ↔ ¬ ((alookup st.multiPartControl id).getD { parts := 0, received := 0 }).received
              + (onDataBody st buffer lscb version methodCode id path headers offset).request.bodyLength
            < (onDataBody st buffer lscb version methodCode id path headers offset).request.totalBodyLength)
    ∧ (alookup (onDataBody st buffer lscb version methodCode id path headers offset).state.multiPartControl id
        = some { parts := ((alookup st.multiPartControl id).getD { parts := 0, received := 0 }).parts + 1,
                 received := ((alookup st.multiPartControl id).getD { parts := 0, received := 0 }).received
                   + (onDataBody st buffer lscb version methodCode id path headers offset).request.bodyLength }
        ↔ ((alookup st.multiPartControl id).getD { parts := 0, received := 0 }).received
              + (onDataBody st buffer lscb version methodCode id path headers offset).request.bodyLength
            < (onDataBody st buffer lscb version methodCode id path headers offset).request.totalBodyLength)
    ∧ ((onDataBody st buffer lscb version methodCode id path headers offset).requestCompleted = true
        ↔ ¬ ((alookup st.multiPartControl id).getD { parts := 0, received := 0 }).received
              + (onDataBody st buffer lscb version methodCode id path headers offset).request.bodyLength
            < (onDataBody st buffer lscb version methodCode id path headers offset).request.totalBodyLength) := by
  unfold onDataBody
  rw [if_pos hb]
  have hreq := onDataDispatch_request
    (bodyPhase st buffer methodCode id offset).st1
    { version := version, methodCode := methodCode, id := id, path := path,
      headers := headers, body := (bodyPhase st buffer methodCode id offset).body,
      bodyLength := (bodyPhase st buffer methodCode id offset).bodyLength,
      totalBodyLength := (bodyPhase st buffer methodCode id offset).totalBodyLength }
    (bodyPhase st buffer methodCode id offset).completed
  have hmp := onDataDispatch_multiPart
    (bodyPhase st buffer methodCode id offset).st1
    { version := version, methodCode := methodCode, id := id, path := path,
      headers := headers, body := (bodyPhase st buffer methodCode id offset).body,
      bodyLength := (bodyPhase st buffer methodCode id offset).bodyLength,
      totalBodyLength := (bodyPhase st buffer methodCode id offset).totalBodyLength }
    (bodyPhase st buffer methodCode id offset).completed
  rw [hreq.1, hmp, hreq.2.1]
  simp only []
  rw [bodyPhase_st1_multiPart]
  have hciff := bodyPhase_completed_iff st buffer methodCode id offset
  constructor
  · trivial
  refine ⟨?_, ?_, hciff⟩
  · by_cases hcompl : (bodyPhase st buffer methodCode id offset).completed = true
    · rw [if_pos hcompl]
      simp only [alookup_adel_self]
      simp only [true_iff]
      exact hciff.mp hcompl
    · rw [if_neg hcompl]
      rw [alookup_aset_self]
      simp only [reduceCtorEq, false_iff, not_not]
      by_contra hlt
      exact hcompl (hciff.mpr hlt)
  · by_cases hcompl : (bodyPhase st buffer methodCode id offset).completed = true
    · rw [if_pos hcompl]
      simp only [alookup_adel_self]
      constructor
      · intro hfalse; cases hfalse
      · intro hlt
        exact absurd hcompl (by simpa using (not_iff_not.mpr hciff).mpr (not_not_intro hlt))
    · rw [if_neg hcompl]
      rw [alookup_aset_self]
      simp only [Option.some.injEq, true_iff]
      by_contra hlt
      exact hcompl (hciff.mpr hlt)

theorem onDataBody_handoff (st : IoTClientState) (buffer : List Nat)
    (lscb version methodCode id : Nat) (path : Option (List Nat))
    (headers : Option (List (List Nat × List Nat))) (offset : Nat) :
    (onDataBody st buffer lscb version methodCode id path headers offset).responseBranch
        = some (onDataBody st buffer lscb version methodCode id path headers offset).request
    ∨ (onDataBody st buffer lscb version methodCode id path headers offset).middlewareRun
        = some (onDataBody st buffer lscb version methodCode id path headers offset).request
    ∨ (alookup st.requestResponse id = none
        ∧ ¬ ((onDataBody st buffer lscb version methodCode id path headers offset).request.methodCode = 1
            ∨ (onDataBody st buffer lscb version methodCode id path headers offset).request.methodCode = 2
            ∨ (onDataBody st buffer lscb version methodCode id path headers offset).request.methodCode = 4)) := by
  cases halk : alookup st.requestResponse id with
  | some hasOR =>
    exact Or.inl (onDataBody_pending st buffer lscb version methodCode id path
      headers offset hasOR halk).2.1
  | none =>
    unfold onDataBody
    by_cases hb : lscb &&& IOT_LSCB_BODY ≠ 0
    · rw [if_pos hb]
      have hrr := bodyPhase_st1_requestResponse st buffer methodCode id offset
      obtain ⟨hmw, hrb, hsrr⟩ :=
        onDataDispatch_nopending (bodyPhase st buffer methodCode id offset).st1
          { version := version, methodCode := methodCode, id := id, path := path,
            headers := headers, body := (bodyPhase st buffer methodCode id offset).body,
            bodyLength := (bodyPhase st buffer methodCode id offset).bodyLength,
            totalBodyLength := (bodyPhase st buffer methodCode id offset).totalBodyLength }
          (bodyPhase st buffer methodCode id offset).completed
          (by rw [hrr]; exact halk)
      have hreq := (onDataDispatch_request (bodyPhase st buffer methodCode id offset).st1
          { version := version, methodCode := methodCode, id := id, path := path,
            headers := headers, body := (bodyPhase st buffer methodCode id offset).body,
            bodyLength := (bodyPhase st buffer methodCode id offset).bodyLength,
            totalBodyLength := (bodyPhase st buffer methodCode id offset).totalBodyLength }
          (bodyPhase st buffer methodCode id offset).completed).1
      by_cases hcond : methodCode = 1 ∨ methodCode = 2 ∨ methodCode = 4
      · refine Or.inr (Or.inl ?_)
        rw [hmw, hreq]
        simp only [hcond, if_pos]
      · refine Or.inr (Or.inr ⟨rfl, ?_⟩)
        rw [hreq]
        exact hcond
    · rw [if_neg hb]
      obtain ⟨hmw, hrb, hsrr⟩ :=
        onDataDispatch_nopending st
          { version := version, methodCode := methodCode, id := id, path := path,
            headers := headers, body := [], bodyLength := 0, totalBodyLength := 0 }
          true halk
      have hreq := (onDataDispatch_request st
          { version := version, methodCode := methodCode, id := id, path := path,
            headers := headers, body := [], bodyLength := 0, totalBodyLength := 0 }
          true).1
      by_cases hcond : methodCode = 1 ∨ methodCode = 2 ∨ methodCode = 4
      · refine Or.inr (Or.inl ?_)
        rw [hmw, hreq]
        simp only [hcond, if_pos]
      · refine Or.inr (Or.inr ⟨rfl, ?_⟩)
        rw [hreq]
        exact hcond

/-- C8 (amended): for any state and any body-bearing inbound frame that
parses without throwing, letting `prev` be the reassembly entry for the
decoded id before the call (zero if absent): after the call an entry for
that id exists iff `prev.received + bodyLength` is strictly below the
totalBodyLength declared by the *current* fragment (not the first one —
see the counterexample); the surviving entry is exactly
`{parts := prev.parts + 1, received := prev.received + bodyLength}`;
`requestCompleted` is the negation of that strict inequality; and the
request is handed upward (pending-response branch or middleware) except in
the silent-drop case (no pending entry and a method outside
SIGNAL/REQUEST/STREAMING). -/
theorem C8_step (st : IoTClientState) (mscb lscb : Nat) (rest : List Nat)
    (r : OnDataResult) (prev : IoTMultiPart)
    (hm : lscb >>> 2 ≠ 5)
    (hb : lscb &&& IOT_LSCB_BODY ≠ 0)
    (hr : r = onData st (mscb :: lscb :: rest))
    (hthrew : r.threw = false)
    (hprev : prev = (alookup st.multiPartControl r.request.id).getD
        { parts := 0, received := 0 }) :
    (alookup r.state.multiPartControl r.request.id = none
      ↔ ¬ prev.received + r.request.bodyLength < r.request.totalBodyLength)
    ∧ (alookup r.state.multiPartControl r.request.id
        = some { parts := prev.parts + 1,
                 received := prev.received + r.request.bodyLength }
      ↔ prev.received + r.request.bodyLength < r.request.totalBodyLength)
    ∧ (r.requestCompleted = true
      ↔ ¬ prev.received + r.request.bodyLength < r.request.totalBodyLength)
    ∧ (r.responseBranch = some r.request ∨ r.middlewareRun = some r.request
      ∨ (alookup st.requestResponse r.request.id = none
         ∧ ¬ (r.request.methodCode = 1 ∨ r.request.methodCode = 2
              ∨ r.request.methodCode = 4))) := by
  subst hprev
  subst hr
  rcases onData_shape st mscb lscb rest hm with hth | ⟨id, path, headers, offset, heq, _⟩
  · rw [hth] at hthrew; cases hthrew
  · rw [heq]
    obtain ⟨hid', A1, A2, A3⟩ :=
      onDataBody_mpc st (mscb :: lscb :: rest) lscb (mscb >>> 2) (lscb >>> 2)
        id path headers offset hb
    rw [hid']
    exact ⟨A1, A2, A3, onDataBody_handoff st (mscb :: lscb :: rest) lscb
      (mscb >>> 2) (lscb >>> 2) id path headers offset⟩

/-! ## C2: chunk-splitting and delivery -/

/-- C2 (amended): each `data` event hands at most one logical request
upward (`onData` parses a single frame per call); bytes left over after a
completed body-bearing frame are retained in `remainBuffer` and prepended
to the next chunk (the retained `[4,4]` below is delivered on the next
event), but a multi-frame segment processed in one piece delivers only its
first frame, so per-frame chunking delivers strictly more requests than
the concatenated stream. -/
theorem C2_at_most_one_delivery_per_event :
    (∀ (st : IoTClientState) (chunk : List Nat),
      (delivered (dataEvent st chunk)).length ≤ 1)
    ∧ (onData initialState [4, 5, 2, 7, 7, 4, 4]).state.remainBuffer = some [4, 4]
    ∧ (processChunks initialState [[4, 5, 2, 7, 7, 4, 4], []]).2.length = 2
    ∧ (processChunks initialState [[4, 4], [4, 4]]).2.length = 2
    ∧ (processChunks initialState [[4, 4, 4, 4]]).2.length = 1 := by
  exact ⟨delivered_dataEvent_le_one, by decide, by decide, by decide, by decide⟩

/-- C2 is false as stated: the four-byte stream `[4,4,4,4]` (two minimal
SIGNAL frames) delivers two requests when split at the frame boundary but
only one when processed in one piece — the trailing body-less frame is
neither delivered nor retained; and a frame split inside its two control
bytes (`[4]` then `[4]`) is dropped outright, with nothing retained in the
remainder state. -/
theorem C2_counterexample_chunking :
    [4, 4] ++ [4, 4] = [4, 4, 4, 4]
    ∧ (processChunks initialState [[4, 4], [4, 4]]).2.length = 2
    ∧ (processChunks initialState [[4, 4, 4, 4]]).2.length = 1
    ∧ (processChunks initialState [[4, 4], [4, 4]]).2
        ≠ (processChunks initialState [[4, 4, 4, 4]]).2
    ∧ (processChunks initialState [[4, 4, 4, 4]]).1.remainBuffer = none
    ∧ (processChunks initialState [[4], [4]]).2 = []
    ∧ (processChunks initialState [[4], [4]]).1.remainBuffer = none := by
  refine ⟨rfl, by decide, by decide, by decide, by decide, by decide, by decide⟩

/-- C6 is false as stated about trailing bytes: the segment
`[4,20] ++ [4,4]` (ALIVE_REQUEST followed by a complete SIGNAL frame)
delivers nothing and retains nothing — the SIGNAL is lost — whereas the
same bytes arriving as separate segments deliver the SIGNAL. -/
theorem C6_counterexample_trailing_dropped :
    delivered (onData initialState [4, 20, 4, 4]) = []
    ∧ (onData initialState [4, 20, 4, 4]).state.remainBuffer = none
    ∧ (onData initialState [4, 20, 4, 4]).state = initialState
    ∧ (processChunks initialState [[4, 20], [4, 4]]).2.length = 1 := by
  refine ⟨by decide, by decide, by decide, by decide⟩

/-- Witness for C6: the minimal ALIVE_REQUEST `[4, 20]` on a fresh
connection. -/
theorem C6_witness :
    (onData initialState [4, 20]).aliveResponse = some (.ok ([4, 24], []))
    ∧ (onData initialState [4, 20]).aliveTimerReset = true
    ∧ (onData initialState [4, 20]).middlewareRun = none
    ∧ (onData initialState [4, 20]).responseBranch = none
    ∧ (onData initialState [4, 20]).state = initialState
    ∧ delivered (onData initialState [4, 20]) = [] :=
  C6_alive_inline initialState 4 20 [] rfl rfl

/-- C8 is false as stated: a first fragment `[4,5,10,9,9,9,9,9]` declares
totalBodyLength 10 and carries 5 body bytes (entry `{parts 1, received 5}`
retained, 5 < 10); a second fragment `[4,5,5]` for the same id re-declares
the total as 5, so the code deletes the entry and reports completion even
though only 5 of the first-declared 10 bytes ever arrived. -/
theorem C8_counterexample_first_fragment_total :
    (onData initialState [4, 5, 10, 9, 9, 9, 9, 9]).request.totalBodyLength = 10
    ∧ alookup (onData initialState [4, 5, 10, 9, 9, 9, 9, 9]).state.multiPartControl 0
        = some { parts := 1, received := 5 }
    ∧ ((5 : Int) < 10)
    ∧ (onData (onData initialState [4, 5, 10, 9, 9, 9, 9, 9]).state [4, 5, 5]).request.bodyLength = 0
    ∧ alookup (onData (onData initialState [4, 5, 10, 9, 9, 9, 9, 9]).state [4, 5, 5]).state.multiPartControl 0
        = none
    ∧ (onData (onData initialState [4, 5, 10, 9, 9, 9, 9, 9]).state [4, 5, 5]).requestCompleted = true := by
  refine ⟨by decide, by decide, by decide, by decide, by decide, by decide⟩

/-- Witness for C8: the first fragment `[4,5,10,9,9,9,9,9]` on a fresh
connection keeps a reassembly entry `{parts 1, received 5}` because
5 < 10. -/
theorem C8_witness :
    alookup (onData initialState [4, 5, 10, 9, 9, 9, 9, 9]).state.multiPartControl
        (onData initialState [4, 5, 10, 9, 9, 9, 9, 9]).request.id
      = some { parts := 0 + 1,
               received := 0 + (onData initialState [4, 5, 10, 9, 9, 9, 9, 9]).request.bodyLength } :=
  (C8_step initialState 4 5 [10, 9, 9, 9, 9, 9]
      (onData initialState [4, 5, 10, 9, 9, 9, 9, 9])
      { parts := 0, received := 0 }
      (by decide) (by decide) rfl (by decide) (by decide)).2.1.mpr (by decide)

/-- Witness for C9: a state with a pending alive entry at id 0 consuming
the minimal SIGNAL `[4, 4]`. -/
theorem C9_witness :
    (onData (⟨[(0, false)], [], none, some 1024⟩ : IoTClientState) [4, 4]).middlewareRun = none
    ∧ (onData (⟨[(0, false)], [], none, some 1024⟩ : IoTClientState) [4, 4]).responseBranch
        = some (onData (⟨[(0, false)], [], none, some 1024⟩ : IoTClientState) [4, 4]).request
    ∧ (onData (⟨[(0, false)], [], none, some 1024⟩ : IoTClientState) [4, 4]).request.id = 0
    ∧ (onData (⟨[(0, false)], [], none, some 1024⟩ : IoTClientState) [4, 4]).onResponseInvoked = false
    ∧ ((onData (⟨[(0, false)], [], none, some 1024⟩ : IoTClientState) [4, 4]).requestCompleted = true →
        alookup (onData (⟨[(0, false)], [], none, some 1024⟩ : IoTClientState) [4, 4]).state.requestResponse 0
          = none) :=
  C9_pending_alive_consumes_idless.2
    (⟨[(0, false)], [], none, some 1024⟩ : IoTClientState)
    4 4 [] false (by decide) (by decide) (by decide) (by decide)

/-- Witness for C10: the two-byte frame `[4, 28]` (method 7, no flags) on a
fresh connection corrupts `bufferSize`. -/
theorem C10_witness :
    (onData initialState [4, 28]).request.body = []
    ∧ (onData initialState [4, 28]).request.methodCode = 7
    ∧ bufferSizeOfBody (onData initialState [4, 28]).request.body = none
    ∧ (onData initialState [4, 28]).state.bufferSize = none :=
  C10_empty_body_corrupts initialState 4 28 [] rfl rfl rfl rfl rfl

/-! ## C3: the writer loop -/

theorem writeBodyPartGo_stall (fuel parts : Nat) :
    writeBodyPartGo (some 16) [7, 17, 0, 1, 47, 97, 97, 97, 97, 97, 97, 3, 0, 0, 0, 1]
      [0] fuel 0 parts = none := by
  induction fuel generalizing parts with
  | zero => rfl
  | succ n ih =>
    simp only [writeBodyPartGo]
    norm_num
    rw [ih (parts + 1)]

theorem jsSub_natCast (l : List Nat) (a b : Nat) (ha : a ≤ l.length)
    (hb : b ≤ l.length) :
    jsSub l (a : Int) (b : Int) = (l.take b).drop a := by
  unfold jsSub jsIdx
  rw [if_neg (by omega : ¬ (b : Int) < 0), if_neg (by omega : ¬ (a : Int) < 0)]
  simp [Int.toNat_natCast, Nat.min_eq_left ha, Nat.min_eq_left hb]

theorem drop_take_drop (l : List Nat) (i j : Nat) (hij : i ≤ j) :
    (l.take j).drop i ++ l.drop j = l.drop i := by
  rw [List.drop_take]
  have h2 : l.drop j = (l.drop i).drop (j - i) := by
    rw [List.drop_drop]
    congr 1
    omega
  rw [h2]
  exact List.take_append_drop _ _

theorem writeBodyPartGo_spec (B : Int) (pfx body : List Nat)
    (hp : (pfx.length : Int) < B) :
    ∀ (fuel i parts : Nat), body.length - i < fuel → i ≤ body.length →
      ∃ ws, writeBodyPartGo (some B) pfx body fuel (i : Int) parts
            = some (ws, parts + ws.length)
        ∧ (∀ w ∈ ws, (w.length : Int) ≤ B)
        ∧ (∀ w ∈ ws, w.take pfx.length = pfx)
        ∧ (ws.map (fun w => w.drop pfx.length)).flatten = body.drop i := by
  intro fuel
  induction fuel with
  | zero => intro i parts h _; omega
  | succ n ih =>
    intro i parts hfuel hi
    simp only [writeBodyPartGo]
    by_cases hsplit : ((body.length : Int) - (i : Int)) + (pfx.length : Int) > B
    · rw [if_pos hsplit]
      have hc0 : (0 : Int) < B - (pfx.length : Int) := by omega
      set c : Nat := (B - (pfx.length : Int)).toNat with hcdef
      have hc : (c : Int) = B - (pfx.length : Int) := Int.toNat_of_nonneg (by omega)
      have hc1 : 1 ≤ c := by omega
      have hlt : i + c < body.length := by omega
      have huntil : (i : Int) + (B - (pfx.length : Int)) = ((i + c : Nat) : Int) := by
        push_cast
        omega
      rw [huntil]
      rw [if_neg (by push_cast; omega : ¬ ((i + c : Nat) : Int) ≥ (body.length : Int))]
      obtain ⟨ws', heq', hlen', htake', hflat'⟩ :=
        ih (i + c) (parts + 1) (by omega) (by omega)
      rw [heq']
      refine ⟨(pfx ++ jsSub body (i : Int) ((i + c : Nat) : Int)) :: ws', ?_, ?_, ?_, ?_⟩
      · simp only [List.length_cons]
        congr 2
        omega
      · intro w hw
        rcases List.mem_cons.mp hw with hw1 | hw2
        · subst hw1
          rw [jsSub_natCast body i (i + c) hi (by omega)]
          have : ((body.take (i + c)).drop i).length = c := by
            rw [List.length_drop, List.length_take]
            omega
          rw [List.length_append, this]
          push_cast
          omega
        · exact hlen' w hw2
      · intro w hw
        rcases List.mem_cons.mp hw with hw1 | hw2
        · subst hw1
          exact List.take_left pfx _
        · exact htake' w hw2
      · simp only [List.map_cons, List.flatten_cons]
        rw [List.drop_left pfx _, hflat']
        rw [jsSub_natCast body i (i + c) hi (by omega)]
        exact drop_take_drop body i (i + c) (by omega)
    · rw [if_neg hsplit]
      have huntil : (i : Int) + ((body.length : Int) - (i : Int))
          = ((body.length : Nat) : Int) := by omega
      rw [huntil]
      rw [if_pos (by omega : ((body.length : Nat) : Int) ≥ (body.length : Int))]
      refine ⟨[pfx ++ jsSub body (i : Int) ((body.length : Nat) : Int)], ?_, ?_, ?_, ?_⟩
      · rfl
      · intro w hw
        rcases List.mem_cons.mp hw with hw1 | hw2
        · subst hw1
          rw [jsSub_natCast body i body.length hi le_rfl]
          rw [List.take_length]
          rw [List.length_append, List.length_drop]
          push_cast
          omega
        · cases hw2
      · intro w hw
        rcases List.mem_cons.mp hw with hw1 | hw2
        · subst hw1
          exact List.take_left pfx _
        · cases hw2
      · simp only [List.map_cons, List.flatten_cons, List.map_nil, List.flatten_nil,
          List.append_nil]
        rw [List.drop_left pfx _]
        rw [jsSub_natCast body i body.length hi le_rfl, List.take_length]

theorem writeBodyPartGo_succ (bufferSize : Option Int) (pfx body : List Nat)
    (fuel : Nat) (i : Int) (parts : Nat) :
    writeBodyPartGo bufferSize pfx body (fuel + 1) i parts =
      (let remain : Int := (body.length : Int) - i
       let untilIdx : Int :=
         match bufferSize with
         | some b =>
           if remain + (pfx.length : Int) > b then i + (b - (pfx.length : Int))
           else i + remain
         | none => i + remain
       let w := pfx ++ jsSub body i untilIdx
       let parts' := parts + 1
       if untilIdx ≥ (body.length : Int) then some ([w], parts')
       else
         match writeBodyPartGo bufferSize pfx body fuel untilIdx parts' with
         | some (ws, p) => some (w :: ws, p)
         | none => none) := rfl

theorem writeBodyPart_1500 (pfx body : List Nat) (hp : pfx.length = 11)
    (hb : body.length = 1500) :
    writeBodyPart (some 1024) pfx body (body.length + 1)
      = some ([pfx ++ body.take 1013, pfx ++ body.drop 1013], 2) := by
  have hsub1 : jsSub body (0 : Int) (1013 : Int) = body.take 1013 := by
    have := jsSub_natCast body 0 1013 (by omega) (by omega)
    simpa using this
  have hsub2 : jsSub body (1013 : Int) (1500 : Int) = body.drop 1013 := by
    have := jsSub_natCast body 1013 1500 (by omega) (by omega)
    rw [show ((1013 : Nat) : Int) = (1013 : Int) from rfl,
      show ((1500 : Nat) : Int) = (1500 : Int) from rfl] at this
    rw [this, ← hb, List.take_length]
  rw [writeBodyPart, hb, writeBodyPartGo_succ]
  simp only [hp, hb]
  norm_num
  rw [hsub1]
  rw [show (1500 : Nat) = 1499 + 1 from rfl, writeBodyPartGo_succ]
  simp only [hp, hb]
  norm_num
  rw [hsub2]

theorem sendEncode_stream1500 (bdy : List Nat) (hlen : bdy.length = 1500) :
    sendEncode 1 (some 1024)
      { method := .STREAMING, id := 1, path := some [47, 97], body := some bdy }
      = .ok ([7, 17, 0, 1, 47, 97, 3, 0, 0, 5, 220], bdy) := by
  have hbe : beBytes 4 1500 = [0, 0, 5, 220] := by decide
  simp [sendEncode, bodyLenFits, methodHasId, methodHasPath, pathTruthy, hlen, hbe,
    bodyLenWidth, EIoTMethod.code, jsGtBufferCheck, pure, Except.pure, bind,
    Except.bind, throw, throwThe, MonadExceptOf.throw, IOT_ETX, beBytes]
  refine ⟨by decide, by decide, by decide⟩

/-- C3 (amended): for every send whose encoded prefix is *strictly*
shorter than the negotiated `bufferSize` (equivalently, path plus headers
strictly below `bufferSize - 8` for the widest prefix), the writer loop
terminates, every TCP write is at most `bufferSize` bytes, every write
starts with the full prefix, and the written body slices concatenate to
the full body; and for every STREAMING send of a 1500-byte body at
`bufferSize` 1024 (11-byte prefix: control bytes, id 1, path "/a", 4-byte
length), exactly 2 writes are issued, of 1024 and 498 bytes. At
`prefix = bufferSize` exactly, the loop does not terminate — see the
counterexample. -/
theorem C3_writer_fragmentation :
    (∀ (B : Int) (r : SendRequest) (pfx bdy : List Nat),
      sendEncode 1 (some B) r = .ok (pfx, bdy) →
      (pfx.length : Int) < B →
      ∃ ws parts,
        writeBodyPart (some B) pfx bdy (bdy.length + 1) = some (ws, parts)
        ∧ parts = ws.length
        ∧ (∀ w ∈ ws, (w.length : Int) ≤ B)
        ∧ (∀ w ∈ ws, w.take pfx.length = pfx)
        ∧ (ws.map (fun w => w.drop pfx.length)).flatten = bdy)
    ∧ (∀ (bdy : List Nat), bdy.length = 1500 →
        sendEncode 1 (some 1024)
          { method := .STREAMING, id := 1, path := some [47, 97], body := some bdy }
          = .ok ([7, 17, 0, 1, 47, 97, 3, 0, 0, 5, 220], bdy)
        ∧ writeBodyPart (some 1024) [7, 17, 0, 1, 47, 97, 3, 0, 0, 5, 220] bdy
            (bdy.length + 1)
          = some ([[7, 17, 0, 1, 47, 97, 3, 0, 0, 5, 220] ++ bdy.take 1013,
                   [7, 17, 0, 1, 47, 97, 3, 0, 0, 5, 220] ++ bdy.drop 1013], 2)
        ∧ ([7, 17, 0, 1, 47, 97, 3, 0, 0, 5, 220] ++ bdy.take 1013).length = 1024
        ∧ ([7, 17, 0, 1, 47, 97, 3, 0, 0, 5, 220] ++ bdy.drop 1013).length = 498) := by
  constructor
  · intro B r pfx bdy henc hp
    obtain ⟨ws, heq, hlen, htake, hflat⟩ :=
      writeBodyPartGo_spec B pfx bdy hp (bdy.length + 1) 0 0 (by omega) (by omega)
    simp only [Nat.zero_add] at heq
    refine ⟨ws, ws.length, ?_, rfl, hlen, htake, by simpa using hflat⟩
    rw [writeBodyPart]
    rw [show ((0 : Nat) : Int) = (0 : Int) from rfl] at heq
    rw [heq]
  · intro bdy hlen
    refine ⟨sendEncode_stream1500 bdy hlen, writeBodyPart_1500 _ bdy rfl hlen, ?_, ?_⟩
    · simp only [List.length_append, List.length_take, hlen]
      norm_num
    · simp only [List.length_append, List.length_drop, hlen]
      norm_num

/-- C3 is false as stated: with `bufferSize = 16` a STREAMING send whose
path plus headers come to exactly `bufferSize - 8` (so the encode
precondition holds) has a 16-byte prefix that fills the buffer entirely;
the writer loop's step size `bufferSize - prefix.length` is 0, the cursor
never advances past the 1-byte body, and the loop never terminates (the
fuel-indexed model returns `none` for every fuel). -/
theorem C3_counterexample_prefix_fills_buffer :
    sendEncode 1 (some 16)
      { method := .STREAMING, id := 1, path := some [47, 97, 97, 97, 97, 97, 97],
        body := some [0] }
      = .ok ([7, 17, 0, 1, 47, 97, 97, 97, 97, 97, 97, 3, 0, 0, 0, 1], [0])
    ∧ ([7, 17, 0, 1, 47, 97, 97, 97, 97, 97, 97, 3, 0, 0, 0, 1] : List Nat).length = 16
    ∧ ¬ ∃ (fuel : Nat) (out : List (List Nat) × Nat),
        writeBodyPart (some 16)
          [7, 17, 0, 1, 47, 97, 97, 97, 97, 97, 97, 3, 0, 0, 0, 1] [0] fuel
          = some out := by
  refine ⟨by decide, by decide, ?_⟩
  rintro ⟨fuel, out, hout⟩
  rw [writeBodyPart, writeBodyPartGo_stall] at hout
  cases hout

/-- Witness for C3: a SIGNAL with a 3-byte body at the default buffer
size, written in one piece. -/
theorem C3_witness :
    ∃ ws parts,
      writeBodyPart (some 1024) [4, 5, 3] [1, 2, 3]
          (([1, 2, 3] : List Nat).length + 1) = some (ws, parts)
      ∧ parts = ws.length
      ∧ (∀ w ∈ ws, (w.length : Int) ≤ 1024)
      ∧ (∀ w ∈ ws, w.take ([4, 5, 3] : List Nat).length = [4, 5, 3])
      ∧ (ws.map (fun w => w.drop ([4, 5, 3] : List Nat).length)).flatten
          = [1, 2, 3] :=
  C3_writer_fragmentation.1 1024 { method := .SIGNAL, body := some [1, 2, 3] }
    [4, 5, 3] [1, 2, 3] (by decide) (by decide)

/-! ## C4: the failure conditions of send -/

set_option maxHeartbeats 3000000 in
/-- C4 (amended): `send` throws — before anything is written and before
the in-flight table is touched (`sendRun` returns the error with the state
unchanged) — if and only if: the present body's length does not fit the
method's length field (`writeUInt8/16/32BE` range error), or the method
carries an id and the resolved id exceeds 0xFFFF, or there are more than
255 headers, or the encoded path plus headers exceed `bufferSize - 8`.
The boundary stands: path+headers equal to `bufferSize - 8` is accepted,
one byte more is rejected (last two conjuncts, at `bufferSize = 16`).
The duplicate-key hypothesis records that a JS header object cannot hold
two equal keys. -/
theorem C4_send_failure_iff :
    (∀ (r : SendRequest) (B : Int) (fresh : Nat),
      (r.headers.map Prod.fst).Nodup →
      ((∃ e, sendEncode fresh (some B) r = .error e)
        ↔ (r.body.isSome ∧ ¬ bodyLenFits r.method (r.body.getD []).length)
          ∨ (methodHasId r.method = true
              ∧ (if r.id = 0 then fresh else r.id) > 65535)
          ∨ r.headers.length > 255
          ∨ jsGtBufferCheck
              ((if methodHasPath r.method ∧ pathTruthy r.path
                then (r.path.getD []).length + 1 else 0)
                + (if r.headers.length > 0
                    then (headerBytes r.headers).length else 0))
              (some B) = true))
    ∧ sendEncode 1 (some 16)
        { method := .SIGNAL, path := some [47, 97, 97, 97, 97, 97, 97] }
        = .ok ([5, 4, 47, 97, 97, 97, 97, 97, 97, 3], [])
    ∧ (∃ e, sendEncode 1 (some 16)
        { method := .SIGNAL, path := some [47, 97, 97, 97, 97, 97, 97, 97] }
        = .error e) := by
  refine ⟨?_, by decide, ⟨.pathHeadersTooBig, by decide⟩⟩
  intro r B fresh hnodup
  simp only [sendEncode, bind, Except.bind, pure, Except.pure, throw, throwThe,
    MonadExceptOf.throw]
  split_ifs with h1 h2 h3 h5 h6 h6 h5 h6 h6 <;>
    simp_all [apply_ite List.length, headerBytes]

theorem C4_oversize_signal_aux (bdy : List Nat) (hlen : bdy.length = 256) :
    sendEncode 1 (some 1024) { method := .SIGNAL, body := some bdy }
      = .error .bodyLenRange := by
  simp [sendEncode, bodyLenFits, hlen, bind, Except.bind, pure, Except.pure, throw,
    throwThe, MonadExceptOf.throw]

/-- C4 is false as stated ("fails iff headers > 255 or path+headers >
bufferSize − 8"): a SIGNAL whose body is 256 bytes has no headers and an
empty path — both stated conditions hold comfortably — yet `send` throws,
because `bodyLengthBuffer.writeUInt8(256)` is a Node range error (the
spec's own boundary table agrees: "SIGNAL body of exactly 255 B encodes;
256 B is rejected at encode"). -/
theorem C4_counterexample_oversize_signal_body :
    sendEncode 1 (some 1024)
        { method := .SIGNAL, body := some (List.replicate 256 7) }
      = .error .bodyLenRange
    ∧ ({ method := .SIGNAL, body := some (List.replicate 256 7) }
        : SendRequest).headers.length = 0
    ∧ jsGtBufferCheck 0 (some 1024) = false :=
  ⟨C4_oversize_signal_aux _ (List.length_replicate _ _), rfl, by decide⟩

/-- Witness for C4: the failure characterization instantiated at a
one-byte SIGNAL. -/
theorem C4_witness :
    (∃ e, sendEncode 1 (some 1024)
        ({ method := .SIGNAL, body := some [1] } : SendRequest) = .error e)
      ↔ (({ method := .SIGNAL, body := some [1] } : SendRequest).body.isSome
          ∧ ¬ bodyLenFits EIoTMethod.SIGNAL
              ((({ method := .SIGNAL, body := some [1] } : SendRequest).body.getD []).length))
        ∨ (methodHasId EIoTMethod.SIGNAL = true ∧ (if (0 : Nat) = 0 then 1 else 0) > 65535)
        ∨ (({ method := .SIGNAL, body := some [1] } : SendRequest).headers.length > 255)
        ∨ jsGtBufferCheck
            ((if methodHasPath EIoTMethod.SIGNAL
                ∧ pathTruthy ({ method := .SIGNAL, body := some [1] } : SendRequest).path
              then ((({ method := .SIGNAL, body := some [1] } : SendRequest).path.getD []).length + 1)
              else 0)
              + (if ({ method := .SIGNAL, body := some [1] } : SendRequest).headers.length > 0
                  then (headerBytes ({ method := .SIGNAL, body := some [1] } : SendRequest).headers).length
                  else 0))
            (some 1024) = true :=
  C4_send_failure_iff.1 { method := .SIGNAL, body := some [1] } 1024 1 (by decide)

/-- C1 is false as stated: the body-less SIGNAL `/x` (all of the claim's
stated conditions hold: version 1, method SIGNAL, no headers, path well
within bounds) encodes to `[5,4,47,120,3]`; decoding initializes
`request.body` to an empty (truthy) `Buffer`, so re-encoding sets the BODY
flag and emits a zero length byte: `[5,5,47,120,3,0]` — the round trip is
not byte-identical. -/
theorem C1_counterexample_bodyless :
    sendEncode 1 (some 1024) { version := 1, method := .SIGNAL, path := some [47, 120] }
      = .ok ([5, 4, 47, 120, 3], [])
    ∧ parsedToSend (onData initialState [5, 4, 47, 120, 3]).request
        = some { version := 1, method := .SIGNAL, id := 0, path := some [47, 120],
                 headers := [], body := some [] }
    ∧ sendEncode 1 (some 1024)
        { version := 1, method := .SIGNAL, id := 0, path := some [47, 120],
          headers := [], body := some [] }
      = .ok ([5, 5, 47, 120, 3, 0], [])
    ∧ ([5, 5, 47, 120, 3, 0] : List Nat) ≠ ([5, 4, 47, 120, 3] : List Nat) := by
  refine ⟨by decide, by decide, by decide, by decide⟩

theorem and_one_flags (v c : Nat) (hc : c < 4) : (4 * v + c) &&& 1 = c % 2 := by
  rcases Nat.even_or_odd c with hev | hod
  · rw [Nat.and_one_is_mod]
    omega
  · rw [Nat.and_one_is_mod]
    omega

theorem and_two_flags (v c : Nat) (hc : c < 4) : (4 * v + c) &&& 2 = c / 2 % 2 * 2 := by
  rw [show (2 : Nat) = 2 ^ 1 from rfl, Nat.and_two_pow]
  rw [Nat.testBit_to_div_mod]
  have hdd : (4 * v + c) / 2 ^ 1 % 2 = c / 2 % 2 := by omega
  rw [hdd]
  by_cases h : c / 2 % 2 = 1
  · simp [h]
  · simp [h]
    omega

theorem shiftr_two_flags (v c : Nat) (hc : c < 4) : (4 * v + c) >>> 2 = v := by
  rw [Nat.shiftRight_eq_div_pow]
  omega

theorem findIdx_first_hit (mid post : List Nat) (v : Nat) (hv : v ∉ mid) :
    (mid ++ v :: post).findIdx? (fun b => b = v) = some mid.length := by
  induction mid with
  | nil => simp [List.findIdx?_cons]
  | cons a tl ih =>
    have ha : a ≠ v := fun h => hv (h ▸ List.mem_cons_self a tl)
    have htl : v ∉ tl := fun h => hv (List.mem_cons_of_mem a h)
    simp [List.findIdx?_cons, ha, ih htl]

theorem jsIndexOf_seg (pre mid post : List Nat) (v : Nat) (hv : v ∉ mid) :
    jsIndexOf (pre ++ (mid ++ v :: post)) v pre.length
      = ((pre.length + mid.length : Nat) : Int) := by
  unfold jsIndexOf
  rw [List.drop_left pre _]
  rw [findIdx_first_hit mid post v hv]

theorem take_drop_seg (pre mid post : List Nat) :
    ((pre ++ (mid ++ post)).take (pre.length + mid.length)).drop pre.length = mid := by
  rw [List.take_append]
  rw [List.drop_left pre _]
  exact List.take_left mid post

theorem jsSub_seg (pre mid post : List Nat) :
    jsSub (pre ++ (mid ++ post)) (pre.length : Int)
        ((pre.length + mid.length : Nat) : Int) = mid := by
  rw [jsSub_natCast _ _ _ (by simp) (by simp [List.length_append])]
  exact take_drop_seg pre mid post

theorem jsByte_seg (pre mid post : List Nat) (i : Nat) (hi : i < mid.length) :
    jsByte (pre ++ (mid ++ post)) (pre.length + i) = jsByte mid i := by
  unfold jsByte
  rw [List.getD_append_right pre (mid ++ post) 0 (pre.length + i) (by omega)]
  rw [Nat.add_sub_cancel_left]
  rw [List.getD_append mid post 0 i hi]

theorem toInt32_of_lt (n : Nat) (h : n < 2147483648) : toInt32 n = (n : Int) := by
  unfold toInt32
  rw [Nat.mod_eq_of_lt (by omega)]
  rw [if_pos (by exact_mod_cast h)]

theorem jsShlTerm_small (b s : Nat) (h : b <<< s < 2147483648) :
    jsShlTerm b s = ((b <<< s : Nat) : Int) := by
  unfold jsShlTerm
  exact toInt32_of_lt _ h

theorem readLenBE_beBytes (pre post : List Nat) (k L : Nat)
    (hk : k = 1 ∨ k = 2 ∨ k = 4) (hL : L < 2 ^ (8 * k)) (h31 : L < 2147483648)
    (hpre : 1 ≤ pre.length) :
    readLenBE (pre ++ (beBytes k L ++ post)) (pre.length - 1) k = (L : Int) := by
  have hoff : ∀ i, pre.length - 1 + 1 + i = pre.length + i := by omega
  rcases hk with hk | hk | hk <;> subst hk
  · have hL' : L < 256 := by
      have : (2 : Nat) ^ (8 * 1) = 256 := rfl
      omega
    have h0 := jsByte_seg pre (beBytes 1 L) post 0 (by simp [beBytes])
    simp only [readLenBE, List.range, List.range.loop, List.foldl, hoff]
    rw [h0]
    have hb0 : jsByte (beBytes 1 L) 0 = L % 256 := by simp [beBytes, jsByte]
    rw [hb0]
    rw [jsShlTerm_small _ 0 (by rw [Nat.shiftLeft_eq,
      show (2 : Nat) ^ 0 = 1 from rfl]; omega)]
    rw [Nat.shiftLeft_eq, show (2 : Nat) ^ 0 = 1 from rfl]
    push_cast
    omega
  · have hL' : L < 65536 := by
      have : (2 : Nat) ^ (8 * 2) = 65536 := rfl
      omega
    have h0 := jsByte_seg pre (beBytes 2 L) post 0 (by simp [beBytes])
    have h1 := jsByte_seg pre (beBytes 2 L) post 1 (by simp [beBytes])
    simp only [readLenBE, List.range, List.range.loop, List.foldl, hoff]
    rw [h0, h1]
    have hb0 : jsByte (beBytes 2 L) 0 = L / 256 % 256 := by simp [beBytes, jsByte]
    have hb1 : jsByte (beBytes 2 L) 1 = L % 256 := by
      simp [beBytes, jsByte]
    rw [hb0, hb1]
    rw [jsShlTerm_small _ 8 (by rw [Nat.shiftLeft_eq,
      show (2 : Nat) ^ 8 = 256 from rfl]; omega)]
    rw [jsShlTerm_small _ 0 (by rw [Nat.shiftLeft_eq,
      show (2 : Nat) ^ 0 = 1 from rfl]; omega)]
    rw [Nat.shiftLeft_eq, Nat.shiftLeft_eq, show (2 : Nat) ^ 8 = 256 from rfl,
      show (2 : Nat) ^ 0 = 1 from rfl]
    push_cast
    omega
  · have hL' : L < 4294967296 := by
      have : (2 : Nat) ^ (8 * 4) = 4294967296 := rfl
      omega
    have h0 := jsByte_seg pre (beBytes 4 L) post 0 (by simp [beBytes])
    have h1 := jsByte_seg pre (beBytes 4 L) post 1 (by simp [beBytes])
    have h2 := jsByte_seg pre (beBytes 4 L) post 2 (by simp [beBytes])
    have h3 := jsByte_seg pre (beBytes 4 L) post 3 (by simp [beBytes])
    simp only [readLenBE, List.range, List.range.loop, List.foldl, hoff]
    rw [h0, h1, h2, h3]
    have hb0 : jsByte (beBytes 4 L) 0 = L / 16777216 % 256 := by
      simp [beBytes, jsByte]
    have hb1 : jsByte (beBytes 4 L) 1 = L / 65536 % 256 := by
      simp [beBytes, jsByte]
    have hb2 : jsByte (beBytes 4 L) 2 = L / 256 % 256 := by
      simp [beBytes, jsByte]
    have hb3 : jsByte (beBytes 4 L) 3 = L % 256 := by
      simp [beBytes, jsByte]
    rw [hb0, hb1, hb2, hb3]
    rw [jsShlTerm_small _ 24 (by rw [Nat.shiftLeft_eq,
      show (2 : Nat) ^ 24 = 16777216 from rfl]; omega)]
    rw [jsShlTerm_small _ 16 (by rw [Nat.shiftLeft_eq,
      show (2 : Nat) ^ 16 = 65536 from rfl]; omega)]
    rw [jsShlTerm_small _ 8 (by rw [Nat.shiftLeft_eq,
      show (2 : Nat) ^ 8 = 256 from rfl]; omega)]
    rw [jsShlTerm_small _ 0 (by rw [Nat.shiftLeft_eq,
      show (2 : Nat) ^ 0 = 1 from rfl]; omega)]
    rw [Nat.shiftLeft_eq, Nat.shiftLeft_eq, Nat.shiftLeft_eq, Nat.shiftLeft_eq,
      show (2 : Nat) ^ 24 = 16777216 from rfl, show (2 : Nat) ^ 16 = 65536 from rfl,
      show (2 : Nat) ^ 8 = 256 from rfl, show (2 : Nat) ^ 0 = 1 from rfl]
    push_cast
    omega

theorem beBytes_length (w n : Nat) : (beBytes w n).length = w := by
  simp [beBytes]

theorem bodyPhase_encoded (preB bs : List Nat) (code idv k : Nat)
    (hk : bodyLengthSize code = k) (hkv : k = 1 ∨ k = 2 ∨ k = 4)
    (hpre : 1 ≤ preB.length)
    (hlen : bs.length < 2 ^ (8 * k)) (h31 : bs.length < 2147483648) :
    bodyPhase initialState (preB ++ (beBytes k bs.length ++ bs)) code idv
        (preB.length - 1)
      = { st1 := initialState, body := bs, totalBodyLength := (bs.length : Int),
          bodyLength := (bs.length : Int), completed := true } := by
  have hdecl := readLenBE_beBytes preB bs k bs.length hkv hlen h31 hpre
  unfold bodyPhase
  dsimp only
  rw [hk, hdecl]
  simp only [initialState, alookup, Option.getD, List.length_append, beBytes_length]
  norm_num
  have hcast : ((preB.length - 1 : Nat) : Int) = (preB.length : Int) - 1 := by omega
  rw [hcast]
  have hseg := jsSub_seg (preB ++ beBytes k bs.length) bs []
  rw [List.append_nil, List.append_assoc] at hseg
  rw [List.length_append, beBytes_length] at hseg
  have hseg2 : jsSub (preB ++ (beBytes k bs.length ++ bs))
      ((preB.length : Int) - 1 + (k : Int) + 1)
      ((preB.length : Int) - 1 + (k : Int) + 1 + (bs.length : Int)) = bs := by
    rw [show ((preB.length : Int) - 1 + (k : Int) + 1)
        = ((preB.length + k : Nat) : Int) by push_cast; omega]
    rw [show ((preB.length + k : Nat) : Int) + (bs.length : Int)
        = ((preB.length + k + bs.length : Nat) : Int) by push_cast; omega]
    exact hseg
  split_ifs with h1 h3
  any_goals (exfalso; omega)
  refine ⟨⟨rfl, ?_⟩, hseg2, ?_, ?_⟩
  · intro h
    omega
  · omega
  · omega
theorem jsInsert_fresh (m : List (List Nat × List Nat)) (k v : List Nat)
    (h : ∀ kv ∈ m, kv.1 ≠ k) : jsInsert m k v = m ++ [(k, v)] := by
  induction m with
  | nil => rfl
  | cons hd tl ih =>
    obtain ⟨k', v'⟩ := hd
    have hk' : k' ≠ k := h (k', v') (List.mem_cons_self _ _)
    simp only [jsInsert, if_neg hk', List.cons_append]
    rw [ih (fun kv hkv => h kv (List.mem_cons_of_mem _ hkv))]

theorem headerPairBytes_length (kv : List Nat × List Nat) :
    (headerPairBytes kv).length = kv.1.length + kv.2.length + 2 := by
  simp [headerPairBytes]
  omega

theorem pairs_le_flatten (hs : List (List Nat × List Nat)) :
    hs.length ≤ ((hs.map headerPairBytes).flatten).length := by
  induction hs with
  | nil => simp
  | cons hd tl ih =>
    simp only [List.map_cons, List.flatten_cons, List.length_append,
      List.length_cons, headerPairBytes_length]
    omega

theorem headerLoop_spec (buffer pre post : List Nat)
    (pairs acc : List (List Nat × List Nat)) (headerSize fuel : Nat)
    (hbuf : buffer = pre ++ ((pairs.map headerPairBytes).flatten ++ post))
    (hpre : 1 ≤ pre.length)
    (hok : ∀ kv ∈ pairs, kv.1 ≠ [] ∧ kv.2 ≠ [] ∧ IOT_RS ∉ kv.1
      ∧ IOT_ETX ∉ kv.1 ∧ IOT_ETX ∉ kv.2)
    (hfresh : ((acc ++ pairs).map Prod.fst).Nodup)
    (hsize : headerSize = acc.length + pairs.length)
    (hne : pairs ≠ [])
    (hfuel : pairs.length ≤ fuel) :
    headerLoop buffer headerSize fuel acc pre.length
      = (acc ++ pairs, pre.length + ((pairs.map headerPairBytes).flatten).length) := by
  induction pairs generalizing buffer pre acc fuel with
  | nil => exact absurd rfl hne
  | cons hd tl ih =>
    obtain ⟨key, val⟩ := hd
    obtain ⟨hkne, hvne, hkRS, hkETX, hvETX⟩ :=
      hok (key, val) (List.mem_cons_self _ _)
    obtain ⟨a, key', rfl⟩ : ∃ a k', key = a :: k' := by
      cases key with
      | nil => exact absurd rfl hkne
      | cons a k' => exact ⟨a, k', rfl⟩
    cases fuel with
    | zero => simp at hfuel
    | succ f =>
    -- normalized shapes of the buffer for the four segment lemmas
    have hbuf1 : buffer = pre ++ ((a :: key') ++ (IOT_RS ::
        (val ++ (IOT_ETX :: ((tl.map headerPairBytes).flatten ++ post))))) := by
      rw [hbuf]
      simp [headerPairBytes, List.append_assoc]
    have hbuf2 : buffer = (pre ++ [a]) ++ ((key' ++ (IOT_RS :: val)) ++ (IOT_ETX ::
        ((tl.map headerPairBytes).flatten ++ post))) := by
      rw [hbuf]
      simp [headerPairBytes, List.append_assoc]
    have hbuf3 : buffer = (pre ++ ((a :: key') ++ [IOT_RS])) ++ (val ++ (IOT_ETX ::
        ((tl.map headerPairBytes).flatten ++ post))) := by
      rw [hbuf]
      simp [headerPairBytes, List.append_assoc]
    have hRS : jsIndexOf buffer IOT_RS pre.length
        = ((pre.length + (a :: key').length : Nat) : Int) := by
      rw [hbuf1]
      exact jsIndexOf_seg pre (a :: key') _ IOT_RS hkRS
    have hETXnotin : IOT_ETX ∉ key' ++ (IOT_RS :: val) := by
      intro hmem
      rcases List.mem_append.mp hmem with h | h
      · exact hkETX (List.mem_cons_of_mem a h)
      · rcases List.mem_cons.mp h with h | h
        · exact absurd h (by decide)
        · exact hvETX h
    have hETX : jsIndexOf buffer IOT_ETX (pre.length + 1)
        = (((pre ++ [a]).length + (key' ++ (IOT_RS :: val)).length : Nat) : Int) := by
      rw [hbuf2, show pre.length + 1 = (pre ++ [a]).length by simp]
      exact jsIndexOf_seg (pre ++ [a]) _ _ IOT_ETX hETXnotin
    have hkeysub : jsSub buffer (pre.length : Int)
        ((pre.length + (a :: key').length : Nat) : Int) = a :: key' := by
      rw [hbuf1]
      exact jsSub_seg pre (a :: key') _
    have hvalsub : jsSub buffer
        (((pre ++ ((a :: key') ++ [IOT_RS])).length : Nat) : Int)
        (((pre ++ ((a :: key') ++ [IOT_RS])).length + val.length : Nat) : Int)
        = val := by
      rw [hbuf3]
      exact jsSub_seg _ val _
    have hfreshkey : ∀ kv ∈ acc, kv.1 ≠ a :: key' := by
      intro kv hkv heq
      have := (List.nodup_append.mp (by
        simpa using hfresh : (acc.map Prod.fst
          ++ ((a :: key') :: tl.map Prod.fst)).Nodup)).2.2
      exact this (List.mem_map_of_mem Prod.fst hkv)
        (by rw [heq]; exact List.mem_cons_self _ _)
    simp only [headerLoop]
    rw [hRS, hETX]
    rw [if_pos (by
      refine ⟨by push_cast; omega, by push_cast; omega, ?_⟩
      have hv1 : 1 ≤ val.length := List.length_pos.mpr hvne
      push_cast
      simp only [List.length_append, List.length_cons]
      push_cast
      omega)]
    rw [hkeysub]
    rw [show ((pre.length + (a :: key').length : Nat) : Int) + 1
      = (((pre ++ ((a :: key') ++ [IOT_RS])).length : Nat) : Int) by
        simp [List.length_append]; push_cast; ring]
    rw [show (((pre ++ [a]).length + (key' ++ (IOT_RS :: val)).length : Nat) : Int)
      = (((pre ++ ((a :: key') ++ [IOT_RS])).length + val.length : Nat) : Int) by
        simp [List.length_append, List.length_cons]; push_cast; ring]
    rw [hvalsub]
    rw [jsInsert_fresh acc (a :: key') val hfreshkey]
    cases tl with
    | nil =>
      rw [if_pos (by simp [hsize])]
      rw [Prod.mk.injEq]
      refine ⟨rfl, ?_⟩
      rw [Int.toNat_natCast]
      simp [headerPairBytes, List.length_append]
      omega
    | cons kv2 tl2 =>
      rw [if_neg (by simp [hsize])]
      rw [show (((pre ++ ((a :: key') ++ [IOT_RS])).length + val.length : Nat) : Int).toNat
        = (pre ++ ((a :: key') ++ [IOT_RS])).length + val.length from Int.toNat_natCast _]
      have hoff : (pre ++ ((a :: key') ++ [IOT_RS])).length + val.length + 1
          = (pre ++ headerPairBytes (a :: key', val)).length := by
        simp [headerPairBytes, List.length_append]
        omega
      rw [hoff]
      rw [ih buffer (pre ++ headerPairBytes (a :: key', val)) (acc ++ [(a :: key', val)]) f
        (by rw [hbuf]; simp [List.append_assoc])
        (by simp [headerPairBytes]; omega)
        (fun kv hkv => hok kv (List.mem_cons_of_mem _ hkv))
        (by simpa using hfresh)
        (by simp [hsize]; omega)
        (by simp)
        (by simpa using hfuel)]
      rw [Prod.mk.injEq]
      refine ⟨by simp, ?_⟩
      simp [headerPairBytes, List.length_append]
      omega
theorem pathPhase_some (pre p rest : List Nat) (mscb : Nat)
    (hm : mscb &&& IOT_MSCB_PATH ≠ 0) (hp : IOT_ETX ∉ p) (h1 : 1 ≤ pre.length) :
    pathPhase (pre ++ ((p ++ [IOT_ETX]) ++ rest)) mscb (pre.length - 1)
      = (some p, pre.length + p.length) := by
  unfold pathPhase
  rw [if_pos hm]
  dsimp only
  rw [show pre.length - 1 + 1 = pre.length from by omega]
  have hidx : jsIndexOf (pre ++ ((p ++ [IOT_ETX]) ++ rest)) IOT_ETX pre.length
      = ((pre.length + p.length : Nat) : Int) := by
    rw [show pre ++ ((p ++ [IOT_ETX]) ++ rest) = pre ++ (p ++ IOT_ETX :: rest) from by
      simp]
    exact jsIndexOf_seg pre p rest IOT_ETX hp
  rw [hidx]
  rw [if_pos (by push_cast; omega)]
  have hsub : jsSub (pre ++ ((p ++ [IOT_ETX]) ++ rest)) (pre.length : Int)
      ((pre.length + p.length : Nat) : Int) = p := by
    rw [show pre ++ ((p ++ [IOT_ETX]) ++ rest) = pre ++ (p ++ (IOT_ETX :: rest)) from by
      simp]
    exact jsSub_seg pre p (IOT_ETX :: rest)
  rw [hsub, Int.toNat_natCast]

theorem pathPhase_none (buffer : List Nat) (mscb offset : Nat)
    (hm : mscb &&& IOT_MSCB_PATH = 0) :
    pathPhase buffer mscb offset = (none, offset) := by
  unfold pathPhase
  rw [if_neg (by simp [hm])]

theorem onDataBody_encoded (preB bs : List Nat)
    (lscb version mcode idv k : Nat)
    (path : Option (List Nat)) (headers : Option (List (List Nat × List Nat)))
    (hk : bodyLengthSize mcode = k) (hkv : k = 1 ∨ k = 2 ∨ k = 4)
    (hpre : 1 ≤ preB.length)
    (hlen : bs.length < 2 ^ (8 * k)) (h31 : bs.length < 2147483648)
    (hbf : lscb &&& IOT_LSCB_BODY = 1) :
    (onDataBody initialState (preB ++ (beBytes k bs.length ++ bs))
        lscb version mcode idv path headers (preB.length - 1)).request
      = { version := version, methodCode := mcode, id := idv, path := path,
          headers := headers, body := bs, bodyLength := (bs.length : Int),
          totalBodyLength := (bs.length : Int) }
    ∧ (onDataBody initialState (preB ++ (beBytes k bs.length ++ bs))
        lscb version mcode idv path headers (preB.length - 1)).threw = false := by
  have hb := bodyPhase_encoded preB bs mcode idv k hk hkv hpre hlen h31
  unfold onDataBody
  rw [if_pos (by rw [hbf]; simp)]
  rw [hb]
  exact ⟨rfl, rfl⟩
theorem onDataAfterId_encoded
    (preId p bs : List Nat) (hs : List (List Nat × List Nat)) (pF hF : Bool)
    (mscb lscb ver mcode idv k : Nat)
    (hk : bodyLengthSize mcode = k) (hkv : k = 1 ∨ k = 2 ∨ k = 4)
    (hpre : 2 ≤ preId.length)
    (hlen : bs.length < 2 ^ (8 * k)) (h31 : bs.length < 2147483648)
    (hpf : mscb &&& IOT_MSCB_PATH = if pF then 1 else 0)
    (hhf : lscb &&& IOT_LSCB_HEADER = if hF then 2 else 0)
    (hbf : lscb &&& IOT_LSCB_BODY = 1)
    (hpETX : IOT_ETX ∉ p)
    (hhs : ∀ kv ∈ hs, kv.1 ≠ [] ∧ kv.2 ≠ [] ∧ IOT_RS ∉ kv.1
      ∧ IOT_ETX ∉ kv.1 ∧ IOT_ETX ∉ kv.2)
    (hnodup : (hs.map Prod.fst).Nodup)
    (hhlen : hs.length ≤ 255) (hhne : hF = true → hs ≠ [])
    (off : Nat) (hoff : off = preId.length - 1) :
    (onDataAfterId initialState
        (preId ++ ((if pF then p ++ [IOT_ETX] else [])
          ++ ((if hF then headerBytes hs else [])
            ++ (beBytes k bs.length ++ bs))))
        mscb lscb ver mcode idv off).request
      = { version := ver, methodCode := mcode, id := idv,
          path := if pF then some p else none,
          headers := if hF then some hs else none,
          body := bs, bodyLength := (bs.length : Int),
          totalBodyLength := (bs.length : Int) }
    ∧ (onDataAfterId initialState
        (preId ++ ((if pF then p ++ [IOT_ETX] else [])
          ++ ((if hF then headerBytes hs else [])
            ++ (beBytes k bs.length ++ bs))))
        mscb lscb ver mcode idv off).threw = false := by
  subst hoff
  cases pF with
  | false =>
    simp only [Bool.false_eq_true, if_false, List.nil_append] at hpf hhf ⊢
    cases hF with
    | false =>
      simp only [Bool.false_eq_true, if_false, List.nil_append] at hhf ⊢
      unfold onDataAfterId
      dsimp only
      rw [pathPhase_none _ _ _ hpf]
      dsimp only
      rw [if_neg (by rw [hhf]; simp)]
      exact onDataBody_encoded preId bs lscb ver mcode idv k none none
        hk hkv (by omega) hlen h31 hbf
    | true =>
      simp only [eq_self_iff_true, if_true] at hhf ⊢
      unfold onDataAfterId
      dsimp only
      rw [pathPhase_none _ _ _ hpf]
      dsimp only
      rw [if_pos (by rw [hhf]; simp)]
      rw [show preId.length - 1 + 1 = preId.length from by omega]
      rw [if_neg (by
        simp only [List.length_append, headerBytes, List.length_cons,
          beBytes_length]
        omega)]
      have h0 := jsByte_seg preId (headerBytes hs) (beBytes k bs.length ++ bs) 0
        (by simp [headerBytes])
      simp only [Nat.add_zero] at h0
      rw [h0]
      rw [show jsByte (headerBytes hs) 0 = hs.length % 256 from rfl]
      have hflat := pairs_le_flatten hs
      have hloop := headerLoop_spec
        (preId ++ (headerBytes hs ++ (beBytes k bs.length ++ bs)))
        (preId ++ [hs.length % 256]) (beBytes k bs.length ++ bs) hs []
        (hs.length % 256)
        ((preId ++ (headerBytes hs ++ (beBytes k bs.length ++ bs))).length + 1)
        (by simp [headerBytes, List.append_assoc])
        (by simp)
        hhs
        (by simpa using hnodup)
        (by simp; omega)
        (hhne rfl)
        (by
          simp only [List.length_append, headerBytes, List.length_cons,
            beBytes_length]
          omega)
      rw [show preId.length + 1 = (preId ++ [hs.length % 256]).length from by simp]
      rw [hloop]
      dsimp only
      have hob := onDataBody_encoded (preId ++ headerBytes hs) bs lscb ver mcode
        idv k none (some hs) hk hkv (by simp only [List.length_append]; omega)
        hlen h31 hbf
      rw [List.append_assoc] at hob
      rw [show (preId ++ headerBytes hs).length - 1
          = (preId ++ [hs.length % 256]).length
            + ((hs.map headerPairBytes).flatten).length - 1 from by
        simp only [List.length_append, headerBytes, List.length_cons,
          List.length_nil]
        omega] at hob
      exact hob
  | true =>
    simp only [eq_self_iff_true, if_true] at hpf ⊢
    cases hF with
    | false =>
      simp only [Bool.false_eq_true, if_false, List.nil_append] at hhf ⊢
      unfold onDataAfterId
      dsimp only
      rw [pathPhase_some preId p (beBytes k bs.length ++ bs) mscb
        (by rw [hpf]; exact one_ne_zero) hpETX (by omega)]
      dsimp only
      rw [if_neg (by rw [hhf]; simp)]
      have hob := onDataBody_encoded (preId ++ (p ++ [IOT_ETX])) bs lscb ver
        mcode idv k (some p) none hk hkv (by simp only [List.length_append]; omega)
        hlen h31 hbf
      rw [List.append_assoc] at hob
      rw [show (preId ++ (p ++ [IOT_ETX])).length - 1
          = preId.length + p.length from by
        simp only [List.length_append, List.length_cons, List.length_nil]
        omega] at hob
      exact hob
    | true =>
      simp only [eq_self_iff_true, if_true] at hhf ⊢
      unfold onDataAfterId
      dsimp only
      rw [pathPhase_some preId p (headerBytes hs ++ (beBytes k bs.length ++ bs))
        mscb (by rw [hpf]; exact one_ne_zero) hpETX (by omega)]
      dsimp only
      rw [if_pos (by rw [hhf]; simp)]
      rw [if_neg (by
        simp only [List.length_append, headerBytes, List.length_cons,
          List.length_nil, beBytes_length]
        omega)]
      have h0 := jsByte_seg (preId ++ (p ++ [IOT_ETX])) (headerBytes hs)
        (beBytes k bs.length ++ bs) 0 (by simp [headerBytes])
      simp only [Nat.add_zero] at h0
      rw [List.append_assoc] at h0
      rw [show (preId ++ (p ++ [IOT_ETX])).length = preId.length + p.length + 1
        from by
          simp only [List.length_append, List.length_cons, List.length_nil]
          omega] at h0
      rw [h0]
      rw [show jsByte (headerBytes hs) 0 = hs.length % 256 from rfl]
      have hflat := pairs_le_flatten hs
      have hloop := headerLoop_spec
        (preId ++ ((p ++ [IOT_ETX]) ++ (headerBytes hs ++ (beBytes k bs.length ++ bs))))
        (preId ++ ((p ++ [IOT_ETX]) ++ [hs.length % 256]))
        (beBytes k bs.length ++ bs) hs [] (hs.length % 256)
        ((preId ++ ((p ++ [IOT_ETX]) ++ (headerBytes hs ++ (beBytes k bs.length ++ bs)))).length + 1)
        (by simp [headerBytes, List.append_assoc])
        (by simp only [List.length_append]; omega)
        hhs
        (by simpa using hnodup)
        (by simp; omega)
        (hhne rfl)
        (by
          simp only [List.length_append, headerBytes, List.length_cons,
            List.length_nil, beBytes_length]
          omega)
      rw [show preId.length + p.length + 1 + 1
          = (preId ++ ((p ++ [IOT_ETX]) ++ [hs.length % 256])).length from by
        simp only [List.length_append, List.length_cons, List.length_nil]
        omega]
      rw [hloop]
      dsimp only
      have hob := onDataBody_encoded (preId ++ ((p ++ [IOT_ETX]) ++ headerBytes hs))
        bs lscb ver mcode idv k (some p) (some hs) hk hkv
        (by simp only [List.length_append]; omega) hlen h31 hbf
      rw [List.append_assoc, List.append_assoc] at hob
      rw [show (preId ++ ((p ++ [IOT_ETX]) ++ headerBytes hs)).length - 1
          = (preId ++ ((p ++ [IOT_ETX]) ++ [hs.length % 256])).length
            + ((hs.map headerPairBytes).flatten).length - 1 from by
        simp only [List.length_append, headerBytes, List.length_cons,
          List.length_nil]
        omega] at hob
      exact hob
theorem onData_encoded
    (p bs : List Nat) (hs : List (List Nat × List Nat)) (iF pF hF : Bool)
    (mscb lscb ver mcode idv k : Nat)
    (hk : bodyLengthSize mcode = k) (hkv : k = 1 ∨ k = 2 ∨ k = 4)
    (hm5 : mcode ≠ 5)
    (hmsr : mscb >>> 2 = ver) (hlsr : lscb >>> 2 = mcode)
    (hm2 : mscb &&& IOT_MSCB_ID = if iF then 2 else 0)
    (hm1 : mscb &&& IOT_MSCB_PATH = if pF then 1 else 0)
    (hl2 : lscb &&& IOT_LSCB_HEADER = if hF then 2 else 0)
    (hl1 : lscb &&& IOT_LSCB_BODY = 1)
    (hid0 : iF = false → idv = 0) (hidlt : idv < 65536)
    (hlen : bs.length < 2 ^ (8 * k)) (h31 : bs.length < 2147483648)
    (hpETX : IOT_ETX ∉ p)
    (hhs : ∀ kv ∈ hs, kv.1 ≠ [] ∧ kv.2 ≠ [] ∧ IOT_RS ∉ kv.1
      ∧ IOT_ETX ∉ kv.1 ∧ IOT_ETX ∉ kv.2)
    (hnodup : (hs.map Prod.fst).Nodup)
    (hhlen : hs.length ≤ 255) (hhne : hF = true → hs ≠ []) :
    (onData initialState
        (([mscb, lscb] ++ (if iF then beBytes 2 idv else []))
          ++ ((if pF then p ++ [IOT_ETX] else [])
            ++ ((if hF then headerBytes hs else [])
              ++ (beBytes k bs.length ++ bs))))).request
      = { version := ver, methodCode := mcode, id := idv,
          path := if pF then some p else none,
          headers := if hF then some hs else none,
          body := bs, bodyLength := (bs.length : Int),
          totalBodyLength := (bs.length : Int) }
    ∧ (onData initialState
        (([mscb, lscb] ++ (if iF then beBytes 2 idv else []))
          ++ ((if pF then p ++ [IOT_ETX] else [])
            ++ ((if hF then headerBytes hs else [])
              ++ (beBytes k bs.length ++ bs))))).threw = false := by
  cases iF with
  | false =>
    have hidv := hid0 rfl
    subst hidv
    simp only [Bool.false_eq_true, if_false, List.nil_append] at hm2 ⊢
    have hfin := onDataAfterId_encoded [mscb, lscb] p bs hs pF hF
      mscb lscb ver mcode 0 k hk hkv (by simp) hlen h31 hm1 hl2 hl1
      hpETX hhs hnodup hhlen hhne 1 (by simp)
    unfold onData
    rw [if_neg (by
      simp only [List.length_append, List.length_cons, List.length_nil]
      omega)]
    dsimp only
    simp only [List.cons_append, List.nil_append] at hfin ⊢
    simp only [jsByte, List.getD_cons_zero, List.getD_cons_succ]
    rw [hlsr, hmsr]
    rw [if_neg hm5]
    rw [if_neg (by simp [hm2])]
    exact hfin
  | true =>
    simp only [eq_self_iff_true, if_true] at hm2 ⊢
    have hbe2 : beBytes 2 idv = [idv / 256 % 256, idv % 256] := by
      simp [beBytes, List.range_succ]
    have hfin := onDataAfterId_encoded ([mscb, lscb] ++ beBytes 2 idv) p bs hs
      pF hF mscb lscb ver mcode idv k hk hkv
      (by simp only [List.length_append, List.length_cons, List.length_nil,
        beBytes_length]; omega)
      hlen h31 hm1 hl2 hl1 hpETX hhs hnodup hhlen hhne 3
      (by simp only [List.length_append, List.length_cons, List.length_nil,
        beBytes_length])
    unfold onData
    rw [if_neg (by
      simp only [List.length_append, List.length_cons, List.length_nil]
      omega)]
    dsimp only
    simp only [hbe2, List.cons_append, List.nil_append] at hfin ⊢
    simp only [jsByte, List.getD_cons_zero, List.getD_cons_succ]
    rw [hlsr, hmsr]
    rw [if_neg hm5]
    rw [if_pos (by
      refine ⟨by rw [hm2]; simp, ?_⟩
      simp only [List.length_cons]
      omega)]
    rw [if_neg (by
      simp only [List.length_cons]
      omega)]
    rw [show idv / 256 % 256 * 256 + idv % 256 = idv from by omega]
    exact hfin
theorem methodOfNat_code (m : EIoTMethod) : methodOfNat m.code = some m := by
  cases m <;> rfl

theorem bodyLengthSize_eq_width (m : EIoTMethod)
    (hm : m = .SIGNAL ∨ m = .REQUEST ∨ m = .RESPONSE ∨ m = .STREAMING) :
    bodyLengthSize m.code = bodyLenWidth m := by
  rcases hm with h | h | h | h <;> subst h <;> rfl

theorem sendEncode_ok_of (fresh : Nat) (B : Option Int) (r : SendRequest)
    (hv : r.version ≠ 0)
    (hfit : ∀ b, r.body = some b → bodyLenFits r.method b.length)
    (hid : methodHasId r.method = true → (if r.id = 0 then fresh else r.id) ≤ 65535)
    (hhdr : r.headers.length ≤ 255)
    (hsz : jsGtBufferCheck
        ((if methodHasPath r.method ∧ pathTruthy r.path then
            r.path.getD [] ++ [IOT_ETX] else []).length
          + (if r.headers.length > 0 then headerBytes r.headers else []).length)
        B = false) :
    sendEncode fresh B r = .ok (
      [(r.version <<< 2 + (if methodHasId r.method then IOT_MSCB_ID else 0)
          + (if methodHasPath r.method ∧ pathTruthy r.path then IOT_MSCB_PATH
            else 0)) % 256,
        (r.method.code <<< 2 + (if r.headers.length > 0 then IOT_LSCB_HEADER
          else 0) + (if r.body.isSome then IOT_LSCB_BODY else 0)) % 256]
      ++ ((if methodHasId r.method then
            beBytes 2 (if r.id = 0 then fresh else r.id) else [])
      ++ ((if methodHasPath r.method ∧ pathTruthy r.path then
            r.path.getD [] ++ [IOT_ETX] else [])
      ++ ((if r.headers.length > 0 then headerBytes r.headers else [])
      ++ (if r.body.isSome then
            beBytes (bodyLenWidth r.method) (r.body.getD []).length else [])))),
      r.body.getD []) := by
  unfold sendEncode
  simp only [pure, Except.pure, bind, Except.bind, throw, throwThe,
    MonadExceptOf.throw]
  rw [if_neg hv]
  rw [if_neg (by
    rintro ⟨hS, hnf⟩
    obtain ⟨b, hb⟩ := Option.isSome_iff_exists.mp hS
    exact hnf (by rw [hb]; exact hfit b hb))]
  by_cases hmi : methodHasId r.method = true
  · rw [if_pos hmi]
    rw [if_neg (by have := hid hmi; omega)]
    by_cases hh : r.headers.length > 0
    · rw [if_pos hh]
      rw [if_neg (by omega)]
      simp only [if_pos hmi, if_pos hh] at hsz ⊢
      rw [if_neg (by simp [hsz])]
      by_cases hb : r.body.isSome = true <;> simp [hb, List.append_assoc]
    · rw [if_neg hh]
      simp only [if_pos hmi, if_neg hh, List.length_nil, Nat.add_zero] at hsz ⊢
      rw [if_neg (by simp [hsz])]
      by_cases hb : r.body.isSome = true <;> simp [hb, List.append_assoc]
  · rw [if_neg hmi]
    by_cases hh : r.headers.length > 0
    · rw [if_pos hh]
      rw [if_neg (by omega)]
      simp only [if_neg hmi, if_pos hh] at hsz ⊢
      rw [if_neg (by simp [hsz])]
      by_cases hb : r.body.isSome = true <;> simp [hb, List.append_assoc]
    · rw [if_neg hh]
      simp only [if_neg hmi, if_neg hh, List.length_nil, Nat.add_zero] at hsz ⊢
      rw [if_neg (by simp [hsz])]
      by_cases hb : r.body.isSome = true <;> simp [hb, List.append_assoc]
/-- C1 (amended): the round trip is stable exactly for requests that carry a
body. For every request with version in [1,63], method one of
SIGNAL/REQUEST/RESPONSE/STREAMING, a present body whose length fits the
method's length field and stays below 2^31, a resolved id in [1,65535] when
the method carries an id, ETX-free path bytes whenever the path is truthy,
at most 255 headers with distinct RS/ETX-free keys and nonempty ETX-free
values, and path plus headers within the bufferSize-8 bound, re-encoding the
request decoded from its encoding reproduces the identical prefix and body
bytes (encode(decode(encode r)) = encode r). Body-less requests break the
round trip (see the counterexample): decode materializes an empty body, so
the re-encode gains the BODY flag and a zero length byte. -/
theorem C1_round_trip (r : SendRequest) (bs : List Nat) (fresh fresh2 : Nat)
    (B : Option Int)
    (hv1 : 1 ≤ r.version) (hv2 : r.version ≤ 63)
    (hm : r.method = .SIGNAL ∨ r.method = .REQUEST ∨ r.method = .RESPONSE
      ∨ r.method = .STREAMING)
    (hbody : r.body = some bs)
    (hfit : bodyLenFits r.method bs.length) (h31 : bs.length < 2147483648)
    (hid : methodHasId r.method = true →
      1 ≤ (if r.id = 0 then fresh else r.id)
      ∧ (if r.id = 0 then fresh else r.id) ≤ 65535)
    (hpath : pathTruthy r.path = true → IOT_ETX ∉ r.path.getD [])
    (hhs : ∀ kv ∈ r.headers, kv.1 ≠ [] ∧ kv.2 ≠ [] ∧ IOT_RS ∉ kv.1
      ∧ IOT_ETX ∉ kv.1 ∧ IOT_ETX ∉ kv.2)
    (hnodup : (r.headers.map Prod.fst).Nodup)
    (hhlen : r.headers.length ≤ 255)
    (hsz : jsGtBufferCheck
        ((if methodHasPath r.method ∧ pathTruthy r.path then
            r.path.getD [] ++ [IOT_ETX] else []).length
          + (if r.headers.length > 0 then headerBytes r.headers else []).length)
        B = false) :
    ∃ pfx r2,
      sendEncode fresh B r = .ok (pfx, bs)
      ∧ parsedToSend (onData initialState (pfx ++ bs)).request = some r2
      ∧ sendEncode fresh2 B r2 = .ok (pfx, bs) := by
  have hvne : r.version ≠ 0 := by omega
  have hcode8 : r.method.code ≤ 8 := by cases r.method <;> simp [EIoTMethod.code]
  have hm5 : r.method.code ≠ 5 := by
    rcases hm with h | h | h | h <;> rw [h] <;> simp [EIoTMethod.code]
  have hk : bodyLengthSize r.method.code = bodyLenWidth r.method :=
    bodyLengthSize_eq_width r.method hm
  have hkv : bodyLenWidth r.method = 1 ∨ bodyLenWidth r.method = 2
      ∨ bodyLenWidth r.method = 4 := by
    rcases hm with h | h | h | h <;> rw [h] <;> simp [bodyLenWidth]
  have hlen : bs.length < 2 ^ (8 * bodyLenWidth r.method) := by
    rcases hm with h | h | h | h
    · rw [h] at hfit ⊢
      simp only [bodyLenFits] at hfit
      have hpow : (2 : Nat) ^ (8 * bodyLenWidth EIoTMethod.SIGNAL) = 256 := rfl
      omega
    · rw [h] at hfit ⊢
      simp only [bodyLenFits] at hfit
      have hpow : (2 : Nat) ^ (8 * bodyLenWidth EIoTMethod.REQUEST) = 65536 := rfl
      omega
    · rw [h] at hfit ⊢
      simp only [bodyLenFits] at hfit
      have hpow : (2 : Nat) ^ (8 * bodyLenWidth EIoTMethod.RESPONSE) = 65536 := rfl
      omega
    · rw [h] at hfit ⊢
      simp only [bodyLenFits] at hfit
      have hpow : (2 : Nat) ^ (8 * bodyLenWidth EIoTMethod.STREAMING)
          = 4294967296 := rfl
      omega
  have hpETX2 : IOT_ETX ∉ r.path.getD [] := by
    by_cases hpt : pathTruthy r.path = true
    · exact hpath hpt
    · cases hr : r.path with
      | none => simp
      | some q =>
        cases q with
        | nil => simp
        | cons a t =>
          rw [hr] at hpt
          exact absurd rfl hpt
  have hid0 : methodHasId r.method = false →
      (if methodHasId r.method then (if r.id = 0 then fresh else r.id) else 0)
        = 0 := by
    intro h
    simp [h]
  have hidlt : (if methodHasId r.method then
      (if r.id = 0 then fresh else r.id) else 0) < 65536 := by
    by_cases h : methodHasId r.method = true
    · simp only [if_pos h]
      have := (hid h).2
      omega
    · simp [h]
  have hidB : (if methodHasId r.method then
        beBytes 2 (if methodHasId r.method then
          (if r.id = 0 then fresh else r.id) else 0) else [])
      = (if methodHasId r.method then
          beBytes 2 (if r.id = 0 then fresh else r.id) else []) := by
    by_cases h : methodHasId r.method = true <;> simp [h]
  have henc := sendEncode_ok_of fresh B r hvne
    (fun b hb => by rw [hbody] at hb; cases hb; exact hfit)
    (fun h => (hid h).2) hhlen hsz
  simp only [hbody, Option.isSome_some, Option.getD_some, eq_self_iff_true,
    if_true] at henc
  by_cases hp : methodHasPath r.method = true ∧ pathTruthy r.path = true
  · obtain ⟨hmp, hpt⟩ := hp
    obtain ⟨pa, pl, hpEq⟩ : ∃ a l, r.path = some (a :: l) := by
      cases hr : r.path with
      | none => rw [hr] at hpt; exact absurd hpt (by simp [pathTruthy])
      | some q =>
        cases q with
        | nil => rw [hr] at hpt; exact absurd hpt (by simp [pathTruthy])
        | cons a t => exact ⟨a, t, rfl⟩
    have hpt2 : pathTruthy (some (r.path.getD [])) = true := by
      rw [hpEq]
      rfl
    by_cases hh : r.headers.length > 0
    · -- path present, headers present
      simp only [if_pos (⟨hmp, hpt⟩ : methodHasPath r.method = true
        ∧ pathTruthy r.path = true), if_pos hh] at henc hsz
      have hmEq : (r.version <<< 2
          + (if methodHasId r.method then IOT_MSCB_ID else 0)
          + IOT_MSCB_PATH) % 256
          = 4 * r.version + ((if methodHasId r.method then 2 else 0) + 1) := by
        rw [Nat.shiftLeft_eq, show (2 : Nat) ^ 2 = 4 from rfl,
          show IOT_MSCB_PATH = 1 from rfl, show IOT_MSCB_ID = 2 from rfl]
        rw [Nat.mod_eq_of_lt (by split_ifs <;> omega)]
        omega
      have hlEq : (r.method.code <<< 2 + IOT_LSCB_HEADER + IOT_LSCB_BODY) % 256
          = 4 * r.method.code + 3 := by
        rw [Nat.shiftLeft_eq, show (2 : Nat) ^ 2 = 4 from rfl,
          show IOT_LSCB_HEADER = 2 from rfl, show IOT_LSCB_BODY = 1 from rfl]
        rw [Nat.mod_eq_of_lt (by omega)]
        omega
      have hflag4 : (if methodHasId r.method then 2 else 0) + 1 < 4 := by
        split_ifs <;> omega
      have hmsr : ((r.version <<< 2
          + (if methodHasId r.method then IOT_MSCB_ID else 0)
          + IOT_MSCB_PATH) % 256) >>> 2 = r.version := by
        rw [hmEq]
        exact shiftr_two_flags _ _ hflag4
      have hlsr : ((r.method.code <<< 2 + IOT_LSCB_HEADER + IOT_LSCB_BODY)
          % 256) >>> 2 = r.method.code := by
        rw [hlEq]
        exact shiftr_two_flags _ 3 (by omega)
      have hm2 : (r.version <<< 2
          + (if methodHasId r.method then IOT_MSCB_ID else 0)
          + IOT_MSCB_PATH) % 256 &&& IOT_MSCB_ID
          = if methodHasId r.method then 2 else 0 := by
        rw [hmEq, show IOT_MSCB_ID = 2 from rfl, and_two_flags _ _ hflag4]
        split_ifs <;> norm_num
      have hm1 : (r.version <<< 2
          + (if methodHasId r.method then IOT_MSCB_ID else 0)
          + IOT_MSCB_PATH) % 256 &&& IOT_MSCB_PATH = 1 := by
        rw [hmEq, show IOT_MSCB_PATH = 1 from rfl, and_one_flags _ _ hflag4]
        split_ifs <;> norm_num
      have hl2 : (r.method.code <<< 2 + IOT_LSCB_HEADER + IOT_LSCB_BODY) % 256
          &&& IOT_LSCB_HEADER = 2 := by
        rw [hlEq, show IOT_LSCB_HEADER = 2 from rfl, and_two_flags _ 3 (by omega)]
      have hl1 : (r.method.code <<< 2 + IOT_LSCB_HEADER + IOT_LSCB_BODY) % 256
          &&& IOT_LSCB_BODY = 1 := by
        rw [hlEq, show IOT_LSCB_BODY = 1 from rfl, and_one_flags _ 3 (by omega)]
      have hdec := onData_encoded (r.path.getD []) bs r.headers
        (methodHasId r.method) true true
        ((r.version <<< 2 + (if methodHasId r.method then IOT_MSCB_ID else 0)
          + IOT_MSCB_PATH) % 256)
        ((r.method.code <<< 2 + IOT_LSCB_HEADER + IOT_LSCB_BODY) % 256)
        r.version r.method.code
        (if methodHasId r.method then (if r.id = 0 then fresh else r.id) else 0)
        (bodyLenWidth r.method)
        hk hkv hm5 hmsr hlsr hm2 (by simpa using hm1) (by simpa using hl2) hl1
        hid0 hidlt hlen h31 hpETX2 hhs hnodup hhlen
        (fun _ => List.length_pos.mp hh)
      simp only [eq_self_iff_true, if_true] at hdec
      rw [hidB] at hdec
      have hparsed := congrArg parsedToSend hdec.1
      simp only [parsedToSend, methodOfNat_code, Option.map_some',
        Option.getD_some] at hparsed
      rw [show ([(r.version <<< 2
            + (if methodHasId r.method then IOT_MSCB_ID else 0)
            + IOT_MSCB_PATH) % 256,
            (r.method.code <<< 2 + IOT_LSCB_HEADER + IOT_LSCB_BODY) % 256]
          ++ (if methodHasId r.method then
                beBytes 2 (if r.id = 0 then fresh else r.id) else []))
          ++ ((r.path.getD [] ++ [IOT_ETX])
          ++ (headerBytes r.headers
          ++ (beBytes (bodyLenWidth r.method) bs.length ++ bs)))
          = ([(r.version <<< 2
            + (if methodHasId r.method then IOT_MSCB_ID else 0)
            + IOT_MSCB_PATH) % 256,
            (r.method.code <<< 2 + IOT_LSCB_HEADER + IOT_LSCB_BODY) % 256]
          ++ ((if methodHasId r.method then
                beBytes 2 (if r.id = 0 then fresh else r.id) else [])
          ++ ((r.path.getD [] ++ [IOT_ETX])
          ++ (headerBytes r.headers
          ++ beBytes (bodyLenWidth r.method) bs.length)))) ++ bs
          from by simp [List.append_assoc]] at hparsed
      refine ⟨_, _, henc, hparsed, ?_⟩
      refine Eq.trans (sendEncode_ok_of fresh2 B _ ?_ ?_ ?_ ?_ ?_) ?_
      · exact hvne
      · exact fun b hb => by cases hb; exact hfit
      · intro h
        have h' : methodHasId r.method = true := h
        dsimp only
        rw [if_pos h']
        rw [if_neg (by have := (hid h').1; omega)]
        exact (hid h').2
      · exact hhlen
      · dsimp only
        rw [if_pos (⟨hmp, hpt2⟩ : methodHasPath r.method = true
          ∧ pathTruthy (some (r.path.getD [])) = true)]
        rw [if_pos hh]
        simp only [Option.getD_some]
        exact hsz
      · dsimp only
        simp only [iff_true_intro (⟨hmp, hpt2⟩ : methodHasPath r.method = true
            ∧ pathTruthy (some (r.path.getD [])) = true),
          iff_true_intro hh, if_true, Option.getD_some, Option.isSome_some,
          eq_self_iff_true]
        rw [show (if methodHasId r.method = true then
              beBytes 2 (if (if methodHasId r.method = true then
                  (if r.id = 0 then fresh else r.id) else 0) = 0 then fresh2
                else (if methodHasId r.method = true then
                  (if r.id = 0 then fresh else r.id) else 0)) else [])
            = (if methodHasId r.method = true then
                beBytes 2 (if r.id = 0 then fresh else r.id) else [])
          from by
            by_cases hmi : methodHasId r.method = true
            · simp only [if_pos hmi]
              rw [if_neg (by have := (hid hmi).1; omega)]
            · simp [hmi]]
    · -- path present, no headers
      simp only [if_pos (⟨hmp, hpt⟩ : methodHasPath r.method = true
        ∧ pathTruthy r.path = true), if_neg hh, Nat.add_zero, List.nil_append,
        List.length_nil] at henc hsz
      have hmEq : (r.version <<< 2
          + (if methodHasId r.method then IOT_MSCB_ID else 0)
          + IOT_MSCB_PATH) % 256
          = 4 * r.version + ((if methodHasId r.method then 2 else 0) + 1) := by
        rw [Nat.shiftLeft_eq, show (2 : Nat) ^ 2 = 4 from rfl,
          show IOT_MSCB_PATH = 1 from rfl, show IOT_MSCB_ID = 2 from rfl]
        rw [Nat.mod_eq_of_lt (by split_ifs <;> omega)]
        omega
      have hlEq : (r.method.code <<< 2 + IOT_LSCB_BODY) % 256
          = 4 * r.method.code + 1 := by
        rw [Nat.shiftLeft_eq, show (2 : Nat) ^ 2 = 4 from rfl,
          show IOT_LSCB_BODY = 1 from rfl]
        rw [Nat.mod_eq_of_lt (by omega)]
        omega
      have hflag4 : (if methodHasId r.method then 2 else 0) + 1 < 4 := by
        split_ifs <;> omega
      have hmsr : ((r.version <<< 2
          + (if methodHasId r.method then IOT_MSCB_ID else 0)
          + IOT_MSCB_PATH) % 256) >>> 2 = r.version := by
        rw [hmEq]
        exact shiftr_two_flags _ _ hflag4
      have hlsr : ((r.method.code <<< 2 + IOT_LSCB_BODY) % 256) >>> 2
          = r.method.code := by
        rw [hlEq]
        exact shiftr_two_flags _ 1 (by omega)
      have hm2 : (r.version <<< 2
          + (if methodHasId r.method then IOT_MSCB_ID else 0)
          + IOT_MSCB_PATH) % 256 &&& IOT_MSCB_ID
          = if methodHasId r.method then 2 else 0 := by
        rw [hmEq, show IOT_MSCB_ID = 2 from rfl, and_two_flags _ _ hflag4]
        split_ifs <;> norm_num
      have hm1 : (r.version <<< 2
          + (if methodHasId r.method then IOT_MSCB_ID else 0)
          + IOT_MSCB_PATH) % 256 &&& IOT_MSCB_PATH = 1 := by
        rw [hmEq, show IOT_MSCB_PATH = 1 from rfl, and_one_flags _ _ hflag4]
        split_ifs <;> norm_num
      have hl2 : (r.method.code <<< 2 + IOT_LSCB_BODY) % 256
          &&& IOT_LSCB_HEADER = 0 := by
        rw [hlEq, show IOT_LSCB_HEADER = 2 from rfl, and_two_flags _ 1 (by omega)]
      have hl1 : (r.method.code <<< 2 + IOT_LSCB_BODY) % 256
          &&& IOT_LSCB_BODY = 1 := by
        rw [hlEq, show IOT_LSCB_BODY = 1 from rfl, and_one_flags _ 1 (by omega)]
      have hdec := onData_encoded (r.path.getD []) bs r.headers
        (methodHasId r.method) true false
        ((r.version <<< 2 + (if methodHasId r.method then IOT_MSCB_ID else 0)
          + IOT_MSCB_PATH) % 256)
        ((r.method.code <<< 2 + IOT_LSCB_BODY) % 256)
        r.version r.method.code
        (if methodHasId r.method then (if r.id = 0 then fresh else r.id) else 0)
        (bodyLenWidth r.method)
        hk hkv hm5 hmsr hlsr hm2 (by simpa using hm1) (by simpa using hl2) hl1
        hid0 hidlt hlen h31 hpETX2 hhs hnodup hhlen (fun h => nomatch h)
      simp only [eq_self_iff_true, if_true, Bool.false_eq_true, if_false,
        List.nil_append] at hdec
      rw [hidB] at hdec
      have hparsed := congrArg parsedToSend hdec.1
      simp only [parsedToSend, methodOfNat_code, Option.map_some',
        Option.getD_some, Option.getD_none] at hparsed
      rw [show ([(r.version <<< 2
            + (if methodHasId r.method then IOT_MSCB_ID else 0)
            + IOT_MSCB_PATH) % 256,
            (r.method.code <<< 2 + IOT_LSCB_BODY) % 256]
          ++ (if methodHasId r.method then
                beBytes 2 (if r.id = 0 then fresh else r.id) else []))
          ++ ((r.path.getD [] ++ [IOT_ETX])
          ++ (beBytes (bodyLenWidth r.method) bs.length ++ bs))
          = ([(r.version <<< 2
            + (if methodHasId r.method then IOT_MSCB_ID else 0)
            + IOT_MSCB_PATH) % 256,
            (r.method.code <<< 2 + IOT_LSCB_BODY) % 256]
          ++ ((if methodHasId r.method then
                beBytes 2 (if r.id = 0 then fresh else r.id) else [])
          ++ ((r.path.getD [] ++ [IOT_ETX])
          ++ beBytes (bodyLenWidth r.method) bs.length))) ++ bs
          from by simp [List.append_assoc]] at hparsed
      refine ⟨_, _, henc, hparsed, ?_⟩
      refine Eq.trans (sendEncode_ok_of fresh2 B _ ?_ ?_ ?_ ?_ ?_) ?_
      · exact hvne
      · exact fun b hb => by cases hb; exact hfit
      · intro h
        have h' : methodHasId r.method = true := h
        dsimp only
        rw [if_pos h']
        rw [if_neg (by have := (hid h').1; omega)]
        exact (hid h').2
      · dsimp only
        simp
      · dsimp only
        rw [if_pos (⟨hmp, hpt2⟩ : methodHasPath r.method = true
          ∧ pathTruthy (some (r.path.getD [])) = true)]
        rw [if_neg (by simp)]
        simp only [Option.getD_some, List.length_nil, Nat.add_zero]
        exact hsz
      · dsimp only
        simp only [iff_true_intro (⟨hmp, hpt2⟩ : methodHasPath r.method = true
            ∧ pathTruthy (some (r.path.getD [])) = true),
          if_true, Option.getD_some, Option.isSome_some, eq_self_iff_true,
          List.length_nil, gt_iff_lt, lt_self_iff_false, if_false,
          Nat.add_zero, List.nil_append]
        rw [show (if methodHasId r.method = true then
              beBytes 2 (if (if methodHasId r.method = true then
                  (if r.id = 0 then fresh else r.id) else 0) = 0 then fresh2
                else (if methodHasId r.method = true then
                  (if r.id = 0 then fresh else r.id) else 0)) else [])
            = (if methodHasId r.method = true then
                beBytes 2 (if r.id = 0 then fresh else r.id) else [])
          from by
            by_cases hmi : methodHasId r.method = true
            · simp only [if_pos hmi]
              rw [if_neg (by have := (hid hmi).1; omega)]
            · simp [hmi]]
  · -- no path flag
    simp only [if_neg hp, Nat.add_zero, List.nil_append, List.length_nil,
      Nat.zero_add] at henc hsz
    have hflag4 : (if methodHasId r.method then 2 else 0) < 4 := by
      split_ifs <;> omega
    have hmEq : (r.version <<< 2
        + (if methodHasId r.method then IOT_MSCB_ID else 0)) % 256
        = 4 * r.version + (if methodHasId r.method then 2 else 0) := by
      rw [Nat.shiftLeft_eq, show (2 : Nat) ^ 2 = 4 from rfl,
        show IOT_MSCB_ID = 2 from rfl]
      rw [Nat.mod_eq_of_lt (by split_ifs <;> omega)]
      omega
    have hmsr : ((r.version <<< 2
        + (if methodHasId r.method then IOT_MSCB_ID else 0)) % 256) >>> 2
        = r.version := by
      rw [hmEq]
      exact shiftr_two_flags _ _ hflag4
    have hm2 : (r.version <<< 2
        + (if methodHasId r.method then IOT_MSCB_ID else 0)) % 256
        &&& IOT_MSCB_ID = if methodHasId r.method then 2 else 0 := by
      rw [hmEq, show IOT_MSCB_ID = 2 from rfl, and_two_flags _ _ hflag4]
      split_ifs <;> norm_num
    have hm1 : (r.version <<< 2
        + (if methodHasId r.method then IOT_MSCB_ID else 0)) % 256
        &&& IOT_MSCB_PATH = 0 := by
      rw [hmEq, show IOT_MSCB_PATH = 1 from rfl, and_one_flags _ _ hflag4]
      split_ifs <;> norm_num
    by_cases hh : r.headers.length > 0
    · -- headers present
      simp only [if_pos hh] at henc hsz
      have hlEq : (r.method.code <<< 2 + IOT_LSCB_HEADER + IOT_LSCB_BODY) % 256
          = 4 * r.method.code + 3 := by
        rw [Nat.shiftLeft_eq, show (2 : Nat) ^ 2 = 4 from rfl,
          show IOT_LSCB_HEADER = 2 from rfl, show IOT_LSCB_BODY = 1 from rfl]
        rw [Nat.mod_eq_of_lt (by omega)]
        omega
      have hlsr : ((r.method.code <<< 2 + IOT_LSCB_HEADER + IOT_LSCB_BODY)
          % 256) >>> 2 = r.method.code := by
        rw [hlEq]
        exact shiftr_two_flags _ 3 (by omega)
      have hl2 : (r.method.code <<< 2 + IOT_LSCB_HEADER + IOT_LSCB_BODY) % 256
          &&& IOT_LSCB_HEADER = 2 := by
        rw [hlEq, show IOT_LSCB_HEADER = 2 from rfl, and_two_flags _ 3 (by omega)]
      have hl1 : (r.method.code <<< 2 + IOT_LSCB_HEADER + IOT_LSCB_BODY) % 256
          &&& IOT_LSCB_BODY = 1 := by
        rw [hlEq, show IOT_LSCB_BODY = 1 from rfl, and_one_flags _ 3 (by omega)]
      have hdec := onData_encoded (r.path.getD []) bs r.headers
        (methodHasId r.method) false true
        ((r.version <<< 2
          + (if methodHasId r.method then IOT_MSCB_ID else 0)) % 256)
        ((r.method.code <<< 2 + IOT_LSCB_HEADER + IOT_LSCB_BODY) % 256)
        r.version r.method.code
        (if methodHasId r.method then (if r.id = 0 then fresh else r.id) else 0)
        (bodyLenWidth r.method)
        hk hkv hm5 hmsr hlsr hm2 (by simpa using hm1) (by simpa using hl2) hl1
        hid0 hidlt hlen h31 hpETX2 hhs hnodup hhlen
        (fun _ => List.length_pos.mp hh)
      simp only [eq_self_iff_true, if_true, Bool.false_eq_true, if_false,
        List.nil_append] at hdec
      rw [hidB] at hdec
      have hparsed := congrArg parsedToSend hdec.1
      simp only [parsedToSend, methodOfNat_code, Option.map_some',
        Option.getD_some] at hparsed
      rw [show ([(r.version <<< 2
            + (if methodHasId r.method then IOT_MSCB_ID else 0)) % 256,
            (r.method.code <<< 2 + IOT_LSCB_HEADER + IOT_LSCB_BODY) % 256]
          ++ (if methodHasId r.method then
                beBytes 2 (if r.id = 0 then fresh else r.id) else []))
          ++ (headerBytes r.headers
          ++ (beBytes (bodyLenWidth r.method) bs.length ++ bs))
          = ([(r.version <<< 2
            + (if methodHasId r.method then IOT_MSCB_ID else 0)) % 256,
            (r.method.code <<< 2 + IOT_LSCB_HEADER + IOT_LSCB_BODY) % 256]
          ++ ((if methodHasId r.method then
                beBytes 2 (if r.id = 0 then fresh else r.id) else [])
          ++ (headerBytes r.headers
          ++ beBytes (bodyLenWidth r.method) bs.length))) ++ bs
          from by simp [List.append_assoc]] at hparsed
      refine ⟨_, _, henc, hparsed, ?_⟩
      refine Eq.trans (sendEncode_ok_of fresh2 B _ ?_ ?_ ?_ ?_ ?_) ?_
      · exact hvne
      · exact fun b hb => by cases hb; exact hfit
      · intro h
        have h' : methodHasId r.method = true := h
        dsimp only
        rw [if_pos h']
        rw [if_neg (by have := (hid h').1; omega)]
        exact (hid h').2
      · exact hhlen
      · dsimp only
        rw [if_neg (by simp [pathTruthy])]
        rw [if_pos hh]
        simp only [List.length_nil, Nat.zero_add]
        exact hsz
      · dsimp only
        simp only [pathTruthy, Bool.false_eq_true, and_false, if_false,
          iff_true_intro hh, if_true, Option.getD_some, Option.isSome_some,
          eq_self_iff_true, Nat.add_zero, List.nil_append]
        rw [show (if methodHasId r.method = true then
              beBytes 2 (if (if methodHasId r.method = true then
                  (if r.id = 0 then fresh else r.id) else 0) = 0 then fresh2
                else (if methodHasId r.method = true then
                  (if r.id = 0 then fresh else r.id) else 0)) else [])
            = (if methodHasId r.method = true then
                beBytes 2 (if r.id = 0 then fresh else r.id) else [])
          from by
            by_cases hmi : methodHasId r.method = true
            · simp only [if_pos hmi]
              rw [if_neg (by have := (hid hmi).1; omega)]
            · simp [hmi]]
    · -- no headers
      simp only [if_neg hh, Nat.add_zero, List.nil_append, List.length_nil]
        at henc hsz
      have hlEq : (r.method.code <<< 2 + IOT_LSCB_BODY) % 256
          = 4 * r.method.code + 1 := by
        rw [Nat.shiftLeft_eq, show (2 : Nat) ^ 2 = 4 from rfl,
          show IOT_LSCB_BODY = 1 from rfl]
        rw [Nat.mod_eq_of_lt (by omega)]
        omega
      have hlsr : ((r.method.code <<< 2 + IOT_LSCB_BODY) % 256) >>> 2
          = r.method.code := by
        rw [hlEq]
        exact shiftr_two_flags _ 1 (by omega)
      have hl2 : (r.method.code <<< 2 + IOT_LSCB_BODY) % 256
          &&& IOT_LSCB_HEADER = 0 := by
        rw [hlEq, show IOT_LSCB_HEADER = 2 from rfl, and_two_flags _ 1 (by omega)]
      have hl1 : (r.method.code <<< 2 + IOT_LSCB_BODY) % 256
          &&& IOT_LSCB_BODY = 1 := by
        rw [hlEq, show IOT_LSCB_BODY = 1 from rfl, and_one_flags _ 1 (by omega)]
      have hdec := onData_encoded (r.path.getD []) bs r.headers
        (methodHasId r.method) false false
        ((r.version <<< 2
          + (if methodHasId r.method then IOT_MSCB_ID else 0)) % 256)
        ((r.method.code <<< 2 + IOT_LSCB_BODY) % 256)
        r.version r.method.code
        (if methodHasId r.method then (if r.id = 0 then fresh else r.id) else 0)
        (bodyLenWidth r.method)
        hk hkv hm5 hmsr hlsr hm2 (by simpa using hm1) (by simpa using hl2) hl1
        hid0 hidlt hlen h31 hpETX2 hhs hnodup hhlen (fun h => nomatch h)
      simp only [eq_self_iff_true, if_true, Bool.false_eq_true, if_false,
        List.nil_append] at hdec
      rw [hidB] at hdec
      have hparsed := congrArg parsedToSend hdec.1
      simp only [parsedToSend, methodOfNat_code, Option.map_some',
        Option.getD_some, Option.getD_none] at hparsed
      rw [show ([(r.version <<< 2
            + (if methodHasId r.method then IOT_MSCB_ID else 0)) % 256,
            (r.method.code <<< 2 + IOT_LSCB_BODY) % 256]
          ++ (if methodHasId r.method then
                beBytes 2 (if r.id = 0 then fresh else r.id) else []))
          ++ (beBytes (bodyLenWidth r.method) bs.length ++ bs)
          = ([(r.version <<< 2
            + (if methodHasId r.method then IOT_MSCB_ID else 0)) % 256,
            (r.method.code <<< 2 + IOT_LSCB_BODY) % 256]
          ++ ((if methodHasId r.method then
                beBytes 2 (if r.id = 0 then fresh else r.id) else [])
          ++ beBytes (bodyLenWidth r.method) bs.length)) ++ bs
          from by simp [List.append_assoc]] at hparsed
      refine ⟨_, _, henc, hparsed, ?_⟩
      refine Eq.trans (sendEncode_ok_of fresh2 B _ ?_ ?_ ?_ ?_ ?_) ?_
      · exact hvne
      · exact fun b hb => by cases hb; exact hfit
      · intro h
        have h' : methodHasId r.method = true := h
        dsimp only
        rw [if_pos h']
        rw [if_neg (by have := (hid h').1; omega)]
        exact (hid h').2
      · dsimp only
        simp
      · dsimp only
        rw [if_neg (by simp [pathTruthy])]
        rw [if_neg (by simp)]
        simp only [List.length_nil, Nat.zero_add]
        exact hsz
      · dsimp only
        simp only [pathTruthy, Bool.false_eq_true, and_false, if_false,
          Option.getD_some, Option.isSome_some, eq_self_iff_true, if_true,
          List.length_nil, gt_iff_lt, lt_self_iff_false,
          Nat.add_zero, List.nil_append]
        rw [show (if methodHasId r.method = true then
              beBytes 2 (if (if methodHasId r.method = true then
                  (if r.id = 0 then fresh else r.id) else 0) = 0 then fresh2
                else (if methodHasId r.method = true then
                  (if r.id = 0 then fresh else r.id) else 0)) else [])
            = (if methodHasId r.method = true then
                beBytes 2 (if r.id = 0 then fresh else r.id) else [])
          from by
            by_cases hmi : methodHasId r.method = true
            · simp only [if_pos hmi]
              rw [if_neg (by have := (hid hmi).1; omega)]
            · simp [hmi]]
/-- Witness: the C1 round trip at a concrete REQUEST with id 7, path `/a`,
one header and a 3-byte body. -/
theorem C1_round_trip_witness :
    ∃ pfx r2,
      sendEncode 9 (some 1024)
        { version := 1, method := .REQUEST, id := 7, path := some [47, 97],
          headers := [([104], [106])], body := some [1, 2, 3] }
        = .ok (pfx, [1, 2, 3])
      ∧ parsedToSend (onData initialState (pfx ++ [1, 2, 3])).request
          = some r2
      ∧ sendEncode 1 (some 1024) r2 = .ok (pfx, [1, 2, 3]) :=
  C1_round_trip
    { version := 1, method := .REQUEST, id := 7, path := some [47, 97],
      headers := [([104], [106])], body := some [1, 2, 3] }
    [1, 2, 3] 9 1 (some 1024)
    (by decide) (by decide) (by decide) rfl (by decide) (by decide)
    (by decide) (by decide) (by decide) (by decide) (by decide) (by decide)
end IoTSpec
